import Mathlib

/-!
Shallow embedding of the pyvectora-core HTTP server pipeline
(`src/rust-core/pyvectora-core/src/{types,route,router,request,server,middleware}.rs`)
and proofs about its routing, middleware, authentication, body-size and
rate-limiting behaviour.

Conventions of the embedding:
* Rust `HashMap`/`HeaderMap` values are association lists (`List (κ × α)`)
  with replace-on-insert semantics (`insertA`); header names are stored
  lowercased, mirroring `hyper::HeaderMap`.
* Fallible Rust functions returning `Result` become `Except Error _`;
  a Rust panic (out-of-bounds index) is `Option.none`.
* `std::time::Instant` timestamps are rational numbers; `u64` and `usize`
  quantities are `Nat` with explicit range checks where Rust parsing checks.
-/

namespace PyVectora

/-- Decidable equality on `Except`, for evaluating results on concrete
inputs. -/
instance {ε α : Type} [DecidableEq ε] [DecidableEq α] : DecidableEq (Except ε α) := fun x y =>
  match x, y with
  | .ok a, .ok b =>
    if h : a = b then .isTrue (by rw [h]) else .isFalse (by simp [h])
  | .error a, .error b =>
    if h : a = b then .isTrue (by rw [h]) else .isFalse (by simp [h])
  | .ok _, .error _ => .isFalse (by simp)
  | .error _, .ok _ => .isFalse (by simp)

/-- Association-list lookup, modelling `HashMap::get`. -/
def lookupA {κ α : Type} [DecidableEq κ] : List (κ × α) → κ → Option α
  | [], _ => none
  | p :: rest, k => if p.1 = k then some p.2 else lookupA rest k

/-- Association-list insert with replacement, modelling `HashMap::insert`
(also `HeaderMap::insert`, which replaces the previous value of the name). -/
def insertA {κ α : Type} [DecidableEq κ] : List (κ × α) → κ → α → List (κ × α)
  | [], k, v => [(k, v)]
  | p :: rest, k, v => if p.1 = k then (k, v) :: rest else p :: insertA rest k v

/-- HTTP methods supported by the router (`router.rs`, `enum Method`). -/
inductive Method where
  | Get
  | Post
  | Put
  | Delete
  | Patch
  | Head
  | Options
deriving DecidableEq, Repr

/-- `Display for Method` (`router.rs`): uppercase ASCII names. -/
def Method.toString : Method → String
  | .Get => "GET"
  | .Post => "POST"
  | .Put => "PUT"
  | .Delete => "DELETE"
  | .Patch => "PATCH"
  | .Head => "HEAD"
  | .Options => "OPTIONS"

/-- Supported path parameter types (`types.rs`, `enum ParamType`). -/
inductive ParamType where
  | String
  | Int
  | Float
  | Bool
deriving DecidableEq, Repr

/-- Alias for the core string type, usable inside namespaces that declare a
constructor named `String`. -/
abbrev Str : Type := String

/-- ASCII lowercasing, modelling `str::to_lowercase`,
`eq_ignore_ascii_case` comparisons and `HeaderName` name normalization
(all inputs of interest are ASCII). -/
def toLowerStr (s : String) : String :=
  String.mk (s.toList.map Char.toLower)

/-- `ParamType::from_specifier` (`types.rs`): case-insensitive aliases,
anything unknown falls back to `String`. -/
def ParamType.from_specifier (s : Str) : ParamType :=
  match toLowerStr s with
  | "int" | "integer" | "i64" => .Int
  | "float" | "f64" | "number" => .Float
  | "bool" | "boolean" => .Bool
  | _ => .String

/-- Converted parameter value (`types.rs`, `enum ParamValue`).  The `f64`
payload of `Float` is carried as an exact rational. -/
inductive ParamValue where
  | String (s : String)
  | Int (i : Int)
  | Float (q : ℚ)
  | Bool (b : Bool)
deriving DecidableEq, Repr

/-- Core error type (`error.rs`, `enum Error`); only the variants reachable
from the embedded code are modelled. -/
inductive Error where
  | RouteNotFound (path : String)
  | InvalidRoutePattern (pattern : String) (reason : String)
  | PayloadTooLarge (limit : Nat) (actual : Nat)
deriving DecidableEq, Repr

/-- Digit-string value; helper for the integer parsers. -/
def digitsVal (cs : List Char) : Nat :=
  cs.foldl (fun a c => a * 10 + (c.toNat - 48)) 0

/-- Nonempty all-digit check; helper for the integer parsers. -/
def allDigits (cs : List Char) : Bool :=
  !cs.isEmpty && cs.all (·.isDigit)

/-- `str::parse::<i64>` as used by `convert_param` (std, external to src/):
optional sign, decimal digits, 64-bit signed range check. -/
def parseI64 (s : String) : Option Int :=
  let pos (cs : List Char) (bound : Nat) : Option Nat :=
    if allDigits cs then
      let n := digitsVal cs
      if n ≤ bound then some n else none
    else none
  match s.toList with
  | '+' :: cs => (pos cs (2 ^ 63 - 1)).map (fun n => (n : Int))
  | '-' :: cs => (pos cs (2 ^ 63)).map (fun n => -(n : Int))
  | cs => (pos cs (2 ^ 63 - 1)).map (fun n => (n : Int))

/-- `str::parse::<usize>` as used by the Content-Length gate (std, external
to src/, 64-bit target): optional plus sign, decimal digits, range check. -/
def parseU64 (s : String) : Option Nat :=
  let pos (cs : List Char) : Option Nat :=
    if allDigits cs then
      let n := digitsVal cs
      if n ≤ 2 ^ 64 - 1 then some n else none
    else none
  match s.toList with
  | '+' :: cs => pos cs
  | cs => pos cs

/-- Modelled from the spec: `str::parse::<f64>` used by `convert_param` is
external to src/; the spec says Float accepts standard decimal notation.
Optional sign, decimal digits with an optional fractional part; the value is
represented exactly as a rational. -/
def parseFloatSpec (s : String) : Option ℚ :=
  let go (cs : List Char) : Option ℚ :=
    let intPart := cs.takeWhile (·.isDigit)
    let rest := cs.dropWhile (·.isDigit)
    match rest with
    | [] => if intPart.isEmpty then none else some ((digitsVal intPart : ℚ))
    | '.' :: frac =>
      if frac.all (·.isDigit) && (!intPart.isEmpty || !frac.isEmpty) then
        some ((digitsVal intPart : ℚ) + (digitsVal frac : ℚ) / ((10 : ℚ) ^ frac.length))
      else none
    | _ => none
  match s.toList with
  | '+' :: cs => go cs
  | '-' :: cs => (go cs).map Neg.neg
  | cs => go cs

/-- `convert_param` (`types.rs`): convert a raw string to a typed value. -/
def convert_param (raw : String) (param_type : ParamType) : Except Error ParamValue :=
  match param_type with
  | .String => .ok (.String raw)
  | .Int =>
    match parseI64 raw with
    | some i => .ok (.Int i)
    | none => .error (.InvalidRoutePattern raw ("Cannot convert " ++ raw ++ " to integer"))
  | .Float =>
    match parseFloatSpec raw with
    | some q => .ok (.Float q)
    | none => .error (.InvalidRoutePattern raw ("Cannot convert " ++ raw ++ " to float"))
  | .Bool =>
    match toLowerStr raw with
    | "true" | "1" | "yes" => .ok (.Bool true)
    | "false" | "0" | "no" => .ok (.Bool false)
    | _ => .error (.InvalidRoutePattern raw ("Cannot convert " ++ raw ++ " to boolean"))

/-- Split a character list on a separator (`str::split`); kernel-evaluable
counterpart of `String.splitOn` for a one-character separator. -/
def splitCharList (sep : Char) : List Char → List (List Char)
  | [] => [[]]
  | c :: rest =>
    let r := splitCharList sep rest
    if c = sep then [] :: r
    else (c :: r.headD []) :: r.tail

/-- `String.splitOn` for a one-character separator, kernel-evaluable. -/
def splitStr (sep : Char) (s : String) : List String :=
  (splitCharList sep s.toList).map String.mk

/-- Split a string at the first occurrence of `sep` (`str::split_once`). -/
def splitOnce (sep : Char) (s : String) : Option (String × String) :=
  let cs := s.toList
  if cs.contains sep then
    some (String.mk (cs.takeWhile (· ≠ sep)), String.mk ((cs.dropWhile (· ≠ sep)).tail))
  else none

/-- `parse_param_pattern` (`types.rs`): `\x7bname:spec\x7d` segments give a
named, typed parameter; everything else is a static segment. -/
def parse_param_pattern (segment : String) : Option (String × ParamType) :=
  let cs := segment.toList
  if cs.head? = some '\x7b' ∧ cs.getLast? = some '\x7d' then
    let inner := String.mk cs.tail.dropLast
    match splitOnce ':' inner with
    | some (name, type_spec) => some (name, ParamType.from_specifier type_spec)
    | none => some (inner, ParamType.String)
  else none

/-- Route metadata (`route.rs`, `struct RouteInfo`). -/
structure RouteInfo where
  handler_id : Nat
  path_pattern : String
  match_pattern : String
  param_types : List (String × ParamType)
  auth_required : Bool
deriving DecidableEq, Repr

/-- `RouteInfo::parse_path_pattern` (`route.rs`): strip type specifiers for
the trie key and collect the parameter-name-to-type map. -/
def RouteInfo.parse_path_pattern (path : String) : String × List (String × ParamType) :=
  let segs := (splitStr '/' path).filter (fun s => s != "")
  let step := fun (acc : List String × List (String × ParamType)) (segment : String) =>
    match parse_param_pattern segment with
    | some (name, param_type) =>
      (acc.1 ++ ["\x7b" ++ name ++ "\x7d"], insertA acc.2 name param_type)
    | none => (acc.1 ++ [segment], acc.2)
  let r := segs.foldl step ([], [])
  (if r.1.isEmpty then "/"
   else String.mk ('/' :: ((r.1.map String.toList).intersperse ['/']).flatten), r.2)

/-- `RouteInfo::new` (`route.rs`). -/
def RouteInfo.new (handler_id : Nat) (path : String) (auth_required : Bool) : RouteInfo :=
  let r := RouteInfo.parse_path_pattern path
  { handler_id := handler_id, path_pattern := path, match_pattern := r.1,
    param_types := r.2, auth_required := auth_required }

/-- `RouteInfo::get_param_type` (`route.rs`): defaults to `String`. -/
def RouteInfo.get_param_type (ri : RouteInfo) (name : String) : ParamType :=
  (lookupA ri.param_types name).getD .String

/-- A segment of a normalized route pattern, as stored in the `matchit`
radix trie: a literal segment or a single-segment parameter. -/
inductive PatSeg where
  | static (s : String)
  | param (name : String)
deriving DecidableEq, Repr

/-- Segments of a request path: everything after the leading slash, split on
slashes (so `/` gives `[""]` and `/users/me` gives `["users", "me"]`). -/
def pathSegments (p : String) : List String :=
  (splitStr '/' p).drop 1

/-- Read a normalized pattern (as produced by `RouteInfo::parse_path_pattern`)
into trie segments; `\x7bname\x7d` segments are parameters. -/
def parsePattern (pat : String) : List PatSeg :=
  (pathSegments pat).map (fun s =>
    if s.toList.head? = some '\x7b' ∧ s.toList.getLast? = some '\x7d' then
      .param (String.mk s.toList.tail.dropLast)
    else .static s)

/-- One pattern segment against one path segment: literals match exactly,
parameters match any nonempty segment (`matchit` semantics). -/
def segMatch : PatSeg → String → Bool
  | .static s, seg => s == seg
  | .param _, seg => seg != ""

/-- Whole-pattern match against a path's segments. -/
def patMatch : List PatSeg → List String → Bool
  | [], [] => true
  | p :: ps, s :: ss => segMatch p s && patMatch ps ss
  | _, _ => false

/-- Parameter captures of a successful match, in segment order. -/
def captures : List PatSeg → List String → List (String × String)
  | .param n :: ps, s :: ss => (n, s) :: captures ps ss
  | _ :: ps, _ :: ss => captures ps ss
  | _, _ => []

/-- Strict trie priority between two patterns matching the same path:
at the first differing position a literal segment beats a parameter
(`matchit` prefers static children). -/
def shapeLt : List PatSeg → List PatSeg → Bool
  | .static _ :: _, .param _ :: _ => true
  | .param _ :: _, .static _ :: _ => false
  | _ :: ps, _ :: qs => shapeLt ps qs
  | _, _ => false

/-- Two patterns that occupy the same trie position (equal literals, and
parameters at the same spots); inserting the second fails (`matchit`
rejects duplicate or conflicting routes). -/
def sameShape : List PatSeg → List PatSeg → Bool
  | [], [] => true
  | .static a :: ps, .static b :: qs => a == b && sameShape ps qs
  | .param _ :: ps, .param _ :: qs => sameShape ps qs
  | _, _ => false

/-- `matchit::Router::at`: among the inserted patterns that match the path,
return the handler id of the highest-priority one with its captures. -/
def trieAt (entries : List (List PatSeg × Nat)) (segs : List String) :
    Option (Nat × List (String × String)) :=
  match entries.filter (fun e => patMatch e.1 segs) with
  | [] => none
  | e :: rest =>
    let best := rest.foldl (fun acc f => if shapeLt f.1 acc.1 then f else acc) e
    some (best.2, captures best.1 segs)

/-- Per-method storage (`router.rs`, `struct MethodRoutes`): the trie's
contents in insertion order, plus route metadata. -/
structure MethodRoutes where
  router : List (List PatSeg × Nat)
  routes : List RouteInfo
deriving DecidableEq, Repr

/-- `MethodRoutes::new`. -/
def MethodRoutes.new : MethodRoutes :=
  { router := [], routes := [] }

/-- Matched route (`router.rs`, `struct Match`). -/
structure Match where
  handler_id : Nat
  params : List (String × String)
  typed_params : List (String × ParamValue)
  auth_required : Bool
deriving DecidableEq, Repr

/-- The router (`router.rs`, `struct Router`). -/
structure Router where
  method_routes : List (Method × MethodRoutes)
  next_handler_id : Nat
deriving DecidableEq, Repr

/-- `Router::new`. -/
def Router.new : Router :=
  { method_routes := [], next_handler_id := 0 }

/-- `Router::add_route` (`router.rs`): the handler-id counter is advanced
before the fallible trie insert; on a conflicting pattern the insert fails
with `InvalidRoutePattern` and the metadata push is skipped, but the counter
stays advanced.  Returns the Rust function's result together with the
mutated router. -/
def Router.add_route (r : Router) (method : Method) (path : String)
    (auth_required : Bool) : Except Error Nat × Router :=
  let handler_id := r.next_handler_id
  let r1 : Router := { r with next_handler_id := handler_id + 1 }
  let route_info := RouteInfo.new handler_id path auth_required
  let match_pattern := route_info.match_pattern
  let pat := parsePattern match_pattern
  let mr := (lookupA r1.method_routes method).getD MethodRoutes.new
  if mr.router.any (fun e => sameShape e.1 pat) then
    (.error (.InvalidRoutePattern path "insert conflict"),
     { r1 with method_routes := insertA r1.method_routes method mr })
  else
    let mr1 : MethodRoutes :=
      { router := mr.router ++ [(pat, handler_id)],
        routes := mr.routes ++ [route_info] }
    (.ok handler_id,
     { r1 with method_routes := insertA r1.method_routes method mr1 })

/-- `Router::match_route` (`router.rs`): trie lookup, then metadata lookup by
handler id, then parameter conversion with fallback to the raw string. -/
def Router.match_route (r : Router) (method : Method) (path : String) :
    Except Error Match :=
  match lookupA r.method_routes method with
  | none => .error (.RouteNotFound path)
  | some method_routes =>
    match trieAt method_routes.router (pathSegments path) with
    | none => .error (.RouteNotFound path)
    | some (handler_id, params) =>
      match method_routes.routes.find? (fun ri => ri.handler_id == handler_id) with
      | none => .error (.RouteNotFound path)
      | some route_info =>
        let typed_params := params.map (fun nv =>
          (nv.1, match convert_param nv.2 (route_info.get_param_type nv.1) with
                 | .ok v => v
                 | .error _ => .String nv.2))
        .ok { handler_id := handler_id, params := params,
              typed_params := typed_params,
              auth_required := route_info.auth_required }

/-- Value of a hexadecimal digit (`request.rs` url decoding helper). -/
def hexDigit? (c : Char) : Option Nat :=
  if '0' ≤ c ∧ c ≤ '9' then some (c.toNat - 48)
  else if 'a' ≤ c ∧ c ≤ 'f' then some (c.toNat - 87)
  else if 'A' ≤ c ∧ c ≤ 'F' then some (c.toNat - 55)
  else none

/-- `u8::from_str_radix(hex, 16)` on a two-character string (std): a leading
plus sign is accepted before a single digit. -/
def hexPair (a b : Char) : Option Nat :=
  if a = '+' then hexDigit? b
  else
    match hexDigit? a, hexDigit? b with
    | some x, some y => some (16 * x + y)
    | _, _ => none

/-- `url_decode` (`request.rs`) over the character list of the string:
`+` becomes a space, `%HH` becomes the byte `HH`; a malformed escape is
passed through as the literal characters consumed. -/
def urlDecodeList : List Char → List Char
  | [] => []
  | '+' :: rest => ' ' :: urlDecodeList rest
  | ['%'] => ['%']
  | ['%', a] => ['%', a]
  | '%' :: a :: b :: rest =>
    match hexPair a b with
    | some n => Char.ofNat n :: urlDecodeList rest
    | none => '%' :: a :: b :: urlDecodeList rest
  | c :: rest => c :: urlDecodeList rest

/-- `url_decode` (`request.rs`). -/
def url_decode (s : String) : String :=
  String.mk (urlDecodeList s.toList)

/-- `parse_query_string` (`request.rs`): split on `&` then on the first `=`
(missing `=` gives an empty value), url-decode key and value, collect with
last-value-wins on duplicate keys. -/
def parse_query_string (query : Option String) : List (String × String) :=
  match query with
  | none => []
  | some q =>
    (splitStr '&' q).foldl (fun acc pair =>
      let kv := match splitOnce '=' pair with
        | some kv => kv
        | none => (pair, "")
      insertA acc (url_decode kv.1) (url_decode kv.2)) []

/-- Verified JWT claims (`serde_json::Value` in the source); the payload is
opaque to the pipeline, so it is carried as a string. -/
abbrev Claims : Type := String

/-- HTTP request wrapper (`request.rs`, `struct PyRequest`).  Header names
are stored lowercased, as in `hyper::HeaderMap`; the body is a byte list. -/
structure PyRequest where
  method : Method
  path : String
  query_string : Option String
  query_params : List (String × String)
  typed_params : List (String × ParamValue)
  headers : List (String × String)
  body : Option (List Nat)
  claims : Option Claims
deriving DecidableEq, Repr

/-- `PyRequest::new` (`request.rs`): split path and query at the first `?`,
parse the query, build the header map. -/
def PyRequest.new (method : Method) (path : String)
    (headers_map : List (String × String)) (body : Option (List Nat)) : PyRequest :=
  let pq : String × Option String :=
    match splitOnce '?' path with
    | some (p, q) => (p, some q)
    | none => (path, none)
  { method := method, path := pq.1, query_string := pq.2,
    query_params := parse_query_string pq.2, typed_params := [],
    headers := headers_map.foldl (fun acc kv => insertA acc (toLowerStr kv.1) kv.2) [],
    body := body, claims := none }

/-- `PyRequest::header` (`request.rs`): case-insensitive lookup. -/
def PyRequest.header (req : PyRequest) (name : String) : Option String :=
  lookupA req.headers (toLowerStr name)

/-- `PyRequest::set_header` (`request.rs`): insert or override. -/
def PyRequest.set_header (req : PyRequest) (name : String) (value : String) : PyRequest :=
  { req with headers := insertA req.headers (toLowerStr name) value }

/-- HTTP response wrapper (`server.rs`, `struct PyResponse`). -/
structure PyResponse where
  status : Nat
  body : String
  content_type : String
  headers : List (String × String)
deriving DecidableEq, Repr

/-- `PyResponse::json` (`server.rs`). -/
def PyResponse.json (body : String) : PyResponse :=
  { status := 200, body := body, content_type := "application/json", headers := [] }

/-- `PyResponse::text` (`server.rs`). -/
def PyResponse.text (body : String) : PyResponse :=
  { status := 200, body := body, content_type := "text/plain", headers := [] }

/-- `PyResponse::with_status` (`server.rs`). -/
def PyResponse.with_status (r : PyResponse) (status : Nat) : PyResponse :=
  { r with status := status }

/-- `PyResponse::with_header` (`server.rs`): a `content-type` header (any
case) is redirected to the dedicated field. -/
def PyResponse.with_header (r : PyResponse) (key value : String) : PyResponse :=
  if toLowerStr key = "content-type" then { r with content_type := value }
  else { r with headers := insertA r.headers key value }

/-- `PyResponse::set_header` (`server.rs`): same redirection as `with_header`. -/
def PyResponse.set_header (r : PyResponse) (key value : String) : PyResponse :=
  PyResponse.with_header r key value

/-- A serialized hyper response (`hyper::Response<Full<Bytes>>`): status,
body, and headers in builder order. -/
structure HyperResponse where
  status : Nat
  body : String
  headers : List (String × String)
deriving DecidableEq, Repr

/-- `PyResponse::into_hyper` (`server.rs`): out-of-range status becomes 500,
`Content-Type` comes from the dedicated field, other headers follow, any
stray `content-type` entry is dropped. -/
def PyResponse.into_hyper (r : PyResponse) : HyperResponse :=
  let status := if 100 ≤ r.status ∧ r.status ≤ 999 then r.status else 500
  { status := status, body := r.body,
    headers := ("Content-Type", r.content_type) ::
      r.headers.filter (fun kv => toLowerStr kv.1 ≠ "content-type") }

/-- Result of a middleware `before_request` hook (`middleware.rs`). -/
inductive MiddlewareResult where
  | Continue
  | Respond (resp : PyResponse)
deriving DecidableEq, Repr

/-- A middleware (`middleware.rs`, `trait Middleware`): the two hooks as
pure functions (`after_response` returns the mutated response). -/
structure MW where
  before_request : PyRequest → MiddlewareResult
  after_response : PyRequest → PyResponse → PyResponse

/-- `MiddlewareChain::run_before` (`middleware.rs`): call hooks in insertion
order, returning at the first `Respond`. -/
def run_before (middlewares : List MW) (req : PyRequest) : MiddlewareResult :=
  match middlewares with
  | [] => .Continue
  | mw :: rest =>
    match mw.before_request req with
    | .Continue => run_before rest req
    | result => result

/-- `MiddlewareChain::run_after` (`middleware.rs`): call every registered
middleware's `after_response` hook in reverse insertion order. -/
def run_after (middlewares : List MW) (req : PyRequest) (res : PyResponse) : PyResponse :=
  middlewares.reverse.foldl (fun r mw => mw.after_response req r) res

/-- Authentication configuration (`server.rs`, `struct AuthConfig`): the
decoding key and validation are derived from the shared secret, so only the
secret is carried. -/
structure AuthConfig where
  secret : String
deriving DecidableEq, Repr

/-- A registered handler (`server.rs`, `type Handler`), as a pure function. -/
abbrev HandlerFn : Type := PyRequest → Match → PyResponse

/-- The server (`server.rs`, `struct Server`); only the fields the request
pipeline reads are carried. -/
structure Server where
  router : Router
  handlers : List HandlerFn
  auth_config : Option AuthConfig
  middleware : List MW
  max_body_size : Nat

/-- `Server::new` (`server.rs`): empty secret means no auth configuration;
`max_body_size` defaults to 1 MiB. -/
def Server.new (secret : String) : Server :=
  { router := Router.new, handlers := [],
    auth_config := if secret = "" then none else some { secret := secret },
    middleware := [], max_body_size := 1024 * 1024 }

/-- `Server::add_route` (`server.rs`): register in the router, then push the
handler; on a router error the handler is not pushed, but the router keeps
the mutations `Router::add_route` already made. -/
def Server.add_route (s : Server) (method : Method) (path : String)
    (handler : HandlerFn) (auth_required : Bool) : Except Error Unit × Server :=
  match s.router.add_route method path auth_required with
  | (.ok _, r) => (.ok (), { s with router := r, handlers := s.handlers ++ [handler] })
  | (.error e, r) => (.error e, { s with router := r })

/-- The 404 response built in `process_request` (`server.rs`). -/
def notFoundResp : PyResponse :=
  ((PyResponse.text "\x7b\"error\": \"Not Found\"\x7d").with_status 404).with_header
    "Content-Type" "application/json"

/-- The 401 response for a missing or non-Bearer Authorization header
(`server.rs`). -/
def missingAuthResp : PyResponse :=
  ((PyResponse.text "\x7b\"error\": \"Missing or invalid Authorization header\"\x7d").with_status
    401).with_header "Content-Type" "application/json"

/-- The 401 response for a token that fails JWT validation (`server.rs`). -/
def unauthorizedResp : PyResponse :=
  ((PyResponse.text "\x7b\"error\": \"Unauthorized\"\x7d").with_status 401).with_header
    "Content-Type" "application/json"

/-- The 500 response when a route requires auth but the server has no JWT
secret (`server.rs`). -/
def misconfiguredResp : PyResponse :=
  ((PyResponse.text
      "\x7b\"error\": \"Server misconfigured: Auth required but no secret set\"\x7d").with_status
    500).with_header "Content-Type" "application/json"

/-- `h.strip_prefix("Bearer ")` on the Authorization header value
(`server.rs`). -/
def bearerToken (h : String) : Option String :=
  let cs := h.toList
  if cs.take 7 = "Bearer ".toList then some (String.mk (cs.drop 7)) else none

/-- First step of `process_request` (`server.rs`): assign a generated
`x-request-id` when the request has none (`rid` stands for the value
`generate_request_id()` produced). -/
def injectRequestId (rid : String) (req : PyRequest) : PyRequest :=
  if (req.header "x-request-id").isNone then req.set_header "x-request-id" rid else req

/-- Late step of `process_request` (`server.rs`): copy the request's
`x-request-id` onto the response when present. -/
def applyRequestId (req : PyRequest) (response : PyResponse) : PyResponse :=
  match req.header "x-request-id" with
  | some request_id => response.set_header "x-request-id" request_id
  | none => response

/-- Middleware-and-handler stage of `process_request` (`server.rs`):
`run_before`, then the handler (indexing `handlers[matched.handler_id]`;
an out-of-bounds index is the Rust panic, modelled as `none`), the
`x-request-id` copy, then `run_after` over the full chain. -/
def handlerStage (handlers : List HandlerFn) (middleware : List MW)
    (req : PyRequest) (matched : Match) : Option (PyRequest × PyResponse) :=
  let respO : Option PyResponse :=
    match run_before middleware req with
    | .Continue => (handlers.get? matched.handler_id).map (fun h => h req matched)
    | .Respond resp => some resp
  respO.map (fun response =>
    (req, run_after middleware req (applyRequestId req response)))

/-- `process_request` (`server.rs`): request-id injection, route match,
auth gate, middleware/handler stage.  `decode` stands for
`jsonwebtoken::decode` with HS256 (external to src/): token and secret to
optional claims.  Returns the final request (its `process_request`-made
mutations included) and the response; `none` is the handler-indexing panic. -/
def process_request (decode : String → String → Option Claims) (rid : String)
    (router : Router) (handlers : List HandlerFn) (auth_config : Option AuthConfig)
    (middleware : List MW) (req0 : PyRequest) : Option (PyRequest × PyResponse) :=
  let req := injectRequestId rid req0
  match router.match_route req.method req.path with
  | .error _ => some (req, notFoundResp)
  | .ok matched =>
    let req := { req with typed_params := matched.typed_params }
    if matched.auth_required then
      match auth_config with
      | some config =>
        match (req.header "authorization").bind bearerToken with
        | some token =>
          match decode token config.secret with
          | some claims => handlerStage handlers middleware { req with claims := some claims } matched
          | none => some (req, unauthorizedResp)
        | none => some (req, missingAuthResp)
      | none => some (req, misconfiguredResp)
    else
      handlerStage handlers middleware req matched

/-- The 413 response of `Server::test_request` (`server.rs`). -/
def testPayloadTooLargeResp : PyResponse :=
  ((PyResponse.text "\x7b\"error\": \"Payload Too Large\"\x7d").with_status 413).with_header
    "Content-Type" "application/json"

/-- The request `Server::test_request` feeds into `process_request`
(`server.rs`): built from the caller's arguments, with `x-client-ip`
overwritten to the string `"test"`. -/
def test_request_input (method : Method) (path : String)
    (headers : List (String × String)) (body : Option (List Nat)) : PyRequest :=
  (PyRequest.new method path headers body).set_header "x-client-ip" "test"

/-- `Server::test_request` (`server.rs`): body-size gate up front, then the
synthesized request through `process_request`. -/
def Server.test_request (decode : String → String → Option Claims) (rid : String)
    (s : Server) (method : Method) (path : String)
    (headers : List (String × String)) (body : Option (List Nat)) : Option PyResponse :=
  if (match body with
      | some b => decide (s.max_body_size < b.length)
      | none => false) then
    some testPayloadTooLargeResp
  else
    (process_request decode rid s.router s.handlers s.auth_config s.middleware
      (test_request_input method path headers body)).map Prod.snd

/-- A parsed wire request as hyper hands it to `from_hyper_with_limit`
(`hyper::Request<Incoming>`): the raw method token, path and query already
split, parsed headers, and the body stream (`none` when collecting the body
fails). -/
structure WireRequest where
  method : String
  path : String
  query : Option String
  headers : List (String × String)
  body : Option (List Nat)
deriving DecidableEq, Repr

/-- The method match in `PyRequest::from_hyper_with_limit` (`request.rs`):
the seven known methods, anything else falls back to GET. -/
def methodFromWire (m : String) : Method :=
  match m with
  | "GET" => .Get
  | "POST" => .Post
  | "PUT" => .Put
  | "DELETE" => .Delete
  | "PATCH" => .Patch
  | "HEAD" => .Head
  | "OPTIONS" => .Options
  | _ => .Get

/-- The header map of a wire request (`req.headers().clone()`):
`hyper::HeaderMap` construction with lowercased names. -/
def wireHeaders (req : WireRequest) : List (String × String) :=
  req.headers.foldl (fun acc kv => insertA acc (toLowerStr kv.1) kv.2) []

/-- `PyRequest::from_hyper_with_limit` (`request.rs`): a parseable declared
`Content-Length` above the limit fails with `PayloadTooLarge` before the
body is read; otherwise the collected body's actual length is checked
against the limit (a failed body read leaves the body `None`, unchecked). -/
def from_hyper_with_limit (req : WireRequest) (max_body_size : Nat) :
    Except Error PyRequest :=
  let hdrs := wireHeaders req
  let declaredTooLarge : Option Nat :=
    match lookupA hdrs "content-length" with
    | some len_str =>
      match parseU64 len_str with
      | some content_len => if max_body_size < content_len then some content_len else none
      | none => none
    | none => none
  match declaredTooLarge with
  | some content_len => .error (.PayloadTooLarge max_body_size content_len)
  | none =>
    let mk (body : Option (List Nat)) : PyRequest :=
      { method := methodFromWire req.method, path := req.path,
        query_string := req.query, query_params := parse_query_string req.query,
        typed_params := [], headers := hdrs, body := body, claims := none }
    match req.body with
    | some bytes =>
      if max_body_size < bytes.length then
        .error (.PayloadTooLarge max_body_size bytes.length)
      else .ok (mk (some bytes))
    | none => .ok (mk none)

/-- The 413 wire response of `handle_request` (`server.rs`). -/
def wirePayloadTooLargeResp : HyperResponse :=
  { status := 413, body := "Payload Too Large", headers := [] }

/-- The 400 wire response of `handle_request` (`server.rs`). -/
def wireBadRequestResp : HyperResponse :=
  { status := 400, body := "Bad Request", headers := [] }

/-- `handle_request` (`server.rs`): build the request under the body-size
limit (413 or 400 on failure), overwrite `x-client-ip` with the peer
address, run `process_request`, serialize. -/
def handle_request (decode : String → String → Option Claims) (rid : String)
    (req : WireRequest) (router : Router) (handlers : List HandlerFn)
    (auth_config : Option AuthConfig) (middleware : List MW)
    (remote_ip : String) (max_body_size : Nat) : Option HyperResponse :=
  match from_hyper_with_limit req max_body_size with
  | .error (.PayloadTooLarge _ _) => some wirePayloadTooLargeResp
  | .error _ => some wireBadRequestResp
  | .ok py_request =>
    let py_request := py_request.set_header "x-client-ip" remote_ip
    (process_request decode rid router handlers auth_config middleware py_request).map
      (fun r => r.2.into_hyper)

/-- Internal token bucket state (`middleware.rs`, `struct Bucket`);
`Instant` timestamps are rationals. -/
structure Bucket where
  tokens : Nat
  last_refill : ℚ
deriving DecidableEq, Repr

/-- The per-key bucket table (`middleware.rs`, the `state` field). -/
abbrev RLState : Type := List (String × Bucket)

/-- Truncation of a nonnegative rational to a natural number, modelling the
`as u64` cast of the refill product. -/
def floorNatQ (q : ℚ) : Nat := (⌊q⌋).toNat

/-- `RateLimitMiddleware::allow` (`middleware.rs`): lazily create the bucket
at full capacity, refill by the elapsed time times the rate (the f64 product
`elapsed.as_secs_f64() * refill_per_sec as f64` cast `as u64` is modelled as
the exact floor; `Instant::duration_since` saturates at zero), consume one
token when available. -/
def allow (capacity refill_per_sec : Nat) (now : ℚ) (key : String)
    (state : RLState) : Bool × RLState :=
  let bucket := (lookupA state key).getD { tokens := capacity, last_refill := now }
  let elapsed := max (now - bucket.last_refill) 0
  let refill := floorNatQ (elapsed * refill_per_sec)
  let bucket := if 0 < refill then
      { tokens := min (bucket.tokens + refill) capacity, last_refill := now }
    else bucket
  if bucket.tokens = 0 then (false, insertA state key bucket)
  else (true, insertA state key { bucket with tokens := bucket.tokens - 1 })

/-- The 429 response of `RateLimitMiddleware::before_request`
(`middleware.rs`). -/
def rateLimitResp : PyResponse :=
  ((PyResponse.text "\x7b\"error\":\"Rate limit exceeded\"\x7d").with_status 429).with_header
    "Content-Type" "application/json"

/-- `RateLimitMiddleware::before_request` (`middleware.rs`): key the bucket
by `x-client-ip` (defaulting to `"unknown"`), consume a token, 429 when the
bucket is empty.  The bucket table is threaded explicitly. -/
def rateLimitBefore (capacity refill_per_sec : Nat) (now : ℚ)
    (req : PyRequest) (state : RLState) : MiddlewareResult × RLState :=
  let key := (req.header "x-client-ip").getD "unknown"
  let r := allow capacity refill_per_sec now key state
  ((if r.1 then .Continue else .Respond rateLimitResp), r.2)

/-- One `allow` call viewed on a single bucket (same computation as `allow`
once the key's bucket is in hand). -/
def bstep (capacity refill_per_sec : Nat) (b : Bucket) (now : ℚ) : Bool × Bucket :=
  let elapsed := max (now - b.last_refill) 0
  let refill := floorNatQ (elapsed * refill_per_sec)
  let b1 := if 0 < refill then
      { tokens := min (b.tokens + refill) capacity, last_refill := now }
    else b
  if b1.tokens = 0 then (false, b1)
  else (true, { b1 with tokens := b1.tokens - 1 })

/-- Number of admitted calls when a single bucket serves requests at the
given times in order. -/
def brun (capacity refill_per_sec : Nat) : Bucket → List ℚ → Nat
  | _, [] => 0
  | b, t :: ts =>
    let r := bstep capacity refill_per_sec b t
    (if r.1 then 1 else 0) + brun capacity refill_per_sec r.2 ts

/-- Number of admitted calls for one key when `allow` serves requests at the
given times in order. -/
def allowRun (capacity refill_per_sec : Nat) (key : String) :
    RLState → List ℚ → Nat
  | _, [] => 0
  | state, t :: ts =>
    let r := allow capacity refill_per_sec t key state
    (if r.1 then 1 else 0) + allowRun capacity refill_per_sec key r.2 ts

/-- Uppercase hexadecimal digit character of a value below 16. -/
def hexDigitChar (n : Nat) : Char :=
  if n < 10 then Char.ofNat (48 + n) else Char.ofNat (55 + n)

/-- The spec-side percent encoder that `url_decode` is claimed to invert,
following the spec's words (§4.3, §8): a space encodes as `+`, alphanumerics
and the unreserved characters stay verbatim, every other byte becomes
`%HH`. -/
def percentEncodeChar (c : Char) : List Char :=
  if c = ' ' then ['+']
  else if c.isAlphanum ∨ c = '-' ∨ c = '_' ∨ c = '.' ∨ c = '~' then [c]
  else ['%', hexDigitChar (c.toNat / 16), hexDigitChar (c.toNat % 16)]

/-- Percent-encode a whole string (spec-side definition). -/
def percentEncode (s : List Char) : List Char :=
  (s.map percentEncodeChar).flatten

/-! Concrete fixtures used by witnesses and counterexamples. -/

/-- A middleware whose hooks do nothing (continue, identity). -/
def mwPass : MW :=
  { before_request := fun _ => .Continue, after_response := fun _ r => r }

/-- A middleware that short-circuits every request. -/
def mwStop : MW :=
  { before_request := fun _ => .Respond (PyResponse.text "stop"),
    after_response := fun _ r => r.with_header "x-after" "ran" }

/-- A plain request fixture. -/
def reqFix : PyRequest := PyRequest.new .Get "/" [("x-request-id", "rid0")] none

/-- A match fixture. -/
def matchFix : Match :=
  { handler_id := 0, params := [], typed_params := [], auth_required := false }

/-- A wire request with an extension method. -/
def traceWire : WireRequest :=
  { method := "TRACE", path := "/x", query := none, headers := [], body := none }

/-- HS256 decode fixture (stands for `jsonwebtoken::decode`): accepts
exactly the token `tok-good` under the secret `s3cret`. -/
def decodeFix : String → String → Option Claims :=
  fun token secret =>
    if token = "tok-good" ∧ secret = "s3cret" then some "claims-ok" else none

/-- A router with a single auth-required route. -/
def authRouter : Router := (Router.new.add_route .Get "/secret" true).2

/-- Auth configuration fixture. -/
def cfgFix : AuthConfig := { secret := "s3cret" }

/-- Request without an Authorization header. -/
def reqNoHdr : PyRequest := PyRequest.new .Get "/secret" [] none

/-- Request with a bad bearer token. -/
def reqBadTok : PyRequest :=
  PyRequest.new .Get "/secret" [("Authorization", "Bearer tok-bad")] none

/-- Request with the good bearer token. -/
def reqGoodTok : PyRequest :=
  PyRequest.new .Get "/secret" [("Authorization", "Bearer tok-good")] none

/-- The match of `/secret` in `authRouter`. -/
def matchSecret : Match :=
  { handler_id := 0, params := [], typed_params := [], auth_required := true }

/-- A wire request declaring `Content-Length: 32`. -/
def bigCLWire : WireRequest :=
  { method := "POST", path := "/u", query := none,
    headers := [("Content-Length", "32")], body := some [] }

/-- A wire request with no declared length and a 20-byte body. -/
def bigBodyWire : WireRequest :=
  { method := "POST", path := "/u", query := none,
    headers := [], body := some (List.replicate 20 7) }

/-- A router with a typed-int route. -/
def intRouter : Router :=
  (Router.new.add_route .Get "/users/\x7bid:int\x7d" false).2

/-- The per-method entry of `intRouter` for GET. -/
def intMR : MethodRoutes :=
  (lookupA intRouter.method_routes .Get).getD MethodRoutes.new

/-- The route metadata of the typed-int route. -/
def intRI : RouteInfo := RouteInfo.new 0 "/users/\x7bid:int\x7d" false

/-- A router where a static route shadows a parameter route. -/
def shadowRouter : Router :=
  ((Router.new.add_route .Get "/users/\x7bid\x7d" false).2.add_route
    .Get "/users/me" false).2

/-- The per-method entry of `shadowRouter` for GET. -/
def shadowMR : MethodRoutes :=
  (lookupA shadowRouter.method_routes .Get).getD MethodRoutes.new

/-- The route metadata of the parameter route of `shadowRouter`. -/
def shadowRI : RouteInfo := RouteInfo.new 0 "/users/\x7bid\x7d" false

/-- Handler fixtures answering distinguishable bodies. -/
def hA : HandlerFn := fun _ _ => PyResponse.text "A"

/-- Second handler fixture. -/
def hB : HandlerFn := fun _ _ => PyResponse.text "B"

/-- Third handler fixture. -/
def hC : HandlerFn := fun _ _ => PyResponse.text "C"

/-- First registration: `GET /a` succeeds with handler id 0. -/
def gap1 : Except Error Unit × Server := (Server.new "").add_route .Get "/a" hA false

/-- Second registration: duplicate `GET /a` fails, but the id counter was
already advanced to 2. -/
def gap2 : Except Error Unit × Server := gap1.2.add_route .Get "/a" hB false

/-- Third registration: `GET /b` succeeds and receives handler id 2, while
`hB` lands at index 1 of the handler vector. -/
def gap3 : Except Error Unit × Server := gap2.2.add_route .Get "/b" hB false

/-- Fourth registration: `GET /c` succeeds with handler id 3. -/
def gap4 : Except Error Unit × Server := gap3.2.add_route .Get "/c" hC false

/-- The server after the four registrations above. -/
def gapServer : Server := gap4.2

/-- A request carrying the rate-limit client key `10.0.0.1`. -/
def reqRateFix : PyRequest :=
  PyRequest.new .Get "/" [("x-client-ip", "10.0.0.1")] none

/-! Association-list lemmas. -/

theorem lookupA_insertA {κ α : Type} [DecidableEq κ] (l : List (κ × α))
    (k k' : κ) (v : α) :
    lookupA (insertA l k v) k' = if k' = k then some v else lookupA l k' := by
  induction l with
  | nil =>
    by_cases h : k' = k
    · simp [insertA, lookupA, h]
    · have : ¬(k = k') := fun e => h e.symm
      simp [insertA, lookupA, h, this]
  | cons p rest ih =>
    by_cases hp : p.1 = k
    · by_cases h : k' = k
      · simp [insertA, lookupA, hp, h]
      · have hk : ¬(k = k') := fun e => h e.symm
        have hpk : ¬(p.1 = k') := by rw [hp]; exact hk
        simp [insertA, lookupA, hp, h, hk, hpk]
    · by_cases hpk : p.1 = k'
      · have h : ¬(k' = k) := fun e => hp (hpk.trans e)
        simp [insertA, lookupA, hp, hpk, h]
      · simp [insertA, lookupA, hp, hpk, ih]

theorem lookupA_insertA_self {κ α : Type} [DecidableEq κ] (l : List (κ × α))
    (k : κ) (v : α) : lookupA (insertA l k v) k = some v := by
  simp [lookupA_insertA]

theorem lookupA_insertA_ne {κ α : Type} [DecidableEq κ] (l : List (κ × α))
    (k k' : κ) (v : α) (h : k' ≠ k) :
    lookupA (insertA l k v) k' = lookupA l k' := by
  simp [lookupA_insertA, h]

/-- Setting a header and reading it back gives the value just set. -/
theorem header_set_header (req : PyRequest) (name value : String) :
    (req.set_header name value).header name = some value := by
  unfold PyRequest.set_header PyRequest.header
  exact lookupA_insertA_self req.headers (toLowerStr name) value

/-! C9. -/

/-- C9: before any middleware or handler observes the request, the server
overwrites the `x-client-ip` header: the request `test_request` synthesizes
and feeds to `process_request` carries `x-client-ip = "test"` whatever
headers the caller supplied, and `set_header "x-client-ip" ip` — the
operation `handle_request` performs on every parsed request with the peer
address before calling `process_request` — makes the header read back as
the peer's address; so a client-supplied `x-client-ip` value is never seen
by the pipeline on these paths. -/
theorem client_ip_overwritten :
    (∀ (method : Method) (path : String) (headers : List (String × String))
        (body : Option (List Nat)),
        (test_request_input method path headers body).header "x-client-ip" = some "test")
    ∧ (∀ (req : PyRequest) (ip : String),
        (req.set_header "x-client-ip" ip).header "x-client-ip" = some ip) := by
  constructor
  · intro method path headers body
    exact header_set_header (PyRequest.new method path headers body) "x-client-ip" "test"
  · intro req ip
    exact header_set_header req "x-client-ip" ip

/-! C10. -/

/-- C10: a wire request whose method token is outside the closed set of the
seven known methods is mapped to GET by request construction, so it is
routed and processed exactly as the same request with method GET. -/
theorem unknown_method_falls_back_to_get :
    (∀ m : String,
        m ∉ ["GET", "POST", "PUT", "DELETE", "PATCH", "HEAD", "OPTIONS"] →
        methodFromWire m = .Get)
    ∧ (∀ (req : WireRequest) (max_body_size : Nat),
        req.method ∉ ["GET", "POST", "PUT", "DELETE", "PATCH", "HEAD", "OPTIONS"] →
        from_hyper_with_limit req max_body_size =
          from_hyper_with_limit { req with method := "GET" } max_body_size) := by
  have base : ∀ m : String,
      m ∉ ["GET", "POST", "PUT", "DELETE", "PATCH", "HEAD", "OPTIONS"] →
      methodFromWire m = .Get := by
    intro m hm
    unfold methodFromWire
    split <;> simp_all
  refine ⟨base, ?_⟩
  intro req max_body_size hm
  unfold from_hyper_with_limit
  rw [base req.method hm]
  rfl

/-- Witness for C10 at the extension method `TRACE`. -/
theorem unknown_method_falls_back_to_get_witness :
    ("TRACE" ∉ ["GET", "POST", "PUT", "DELETE", "PATCH", "HEAD", "OPTIONS"])
    ∧ methodFromWire "TRACE" = .Get
    ∧ from_hyper_with_limit traceWire 16 =
        from_hyper_with_limit { traceWire with method := "GET" } 16 :=
  ⟨by decide, unknown_method_falls_back_to_get.1 "TRACE" (by decide),
   unknown_method_falls_back_to_get.2 traceWire 16 (by decide)⟩

/-! C3. -/

/-- C3: `run_before` invokes hooks in insertion order and returns at the
first `Respond`, skipping all later before-hooks; `run_after` is a reverse-
order homomorphism over the chain, so the last-added middleware's
after-hook runs first and every registered after-hook runs; and when
`run_before` short-circuits, the pipeline's middleware stage applies
`run_after` over the entire chain — including middlewares whose before-hook
never ran — with the handler skipped. -/
theorem middleware_chain_contract :
    (∀ (xs ys : List MW) (m : MW) (req : PyRequest) (r : PyResponse),
        (∀ x ∈ xs, x.before_request req = .Continue) →
        m.before_request req = .Respond r →
        run_before (xs ++ m :: ys) req = .Respond r)
    ∧ (∀ (ms₁ ms₂ : List MW) (req : PyRequest) (res : PyResponse),
        run_after (ms₁ ++ ms₂) req res = run_after ms₁ req (run_after ms₂ req res))
    ∧ (∀ (ms : List MW) (m : MW) (req : PyRequest) (res : PyResponse),
        run_after (ms ++ [m]) req res = run_after ms req (m.after_response req res))
    ∧ (∀ (handlers : List HandlerFn) (ms : List MW) (req : PyRequest)
        (matched : Match) (r : PyResponse),
        run_before ms req = .Respond r →
        handlerStage handlers ms req matched =
          some (req, run_after ms req (applyRequestId req r))) := by
  have hafter : ∀ (ms₁ ms₂ : List MW) (req : PyRequest) (res : PyResponse),
      run_after (ms₁ ++ ms₂) req res = run_after ms₁ req (run_after ms₂ req res) := by
    intro ms₁ ms₂ req res
    unfold run_after
    rw [List.reverse_append, List.foldl_append]
  refine ⟨?_, hafter, ?_, ?_⟩
  · intro xs ys m req r hxs hm
    induction xs with
    | nil => simp [run_before, hm]
    | cons x rest ih =>
      have hx : x.before_request req = .Continue := hxs x (by simp)
      have hrest : ∀ y ∈ rest, y.before_request req = .Continue := by
        intro y hy
        exact hxs y (by simp [hy])
      simpa [run_before, hx] using ih hrest
  · intro ms m req res
    rw [hafter ms [m] req res]
    rfl
  · intro handlers ms req matched r h
    unfold handlerStage
    rw [h]
    rfl

/-- Witness for C3: with chain `[pass, stop, pass]` the stop middleware's
`Respond` is returned by `run_before`, and the short-circuited stage still
runs every after-hook. -/
theorem middleware_chain_contract_witness :
    ((∀ x ∈ [mwPass], x.before_request reqFix = .Continue)
      ∧ mwStop.before_request reqFix = .Respond (PyResponse.text "stop"))
    ∧ run_before ([mwPass] ++ mwStop :: [mwPass]) reqFix =
        .Respond (PyResponse.text "stop")
    ∧ (run_before [mwStop, mwPass] reqFix = .Respond (PyResponse.text "stop")
      ∧ handlerStage [] [mwStop, mwPass] reqFix matchFix =
          some (reqFix, run_after [mwStop, mwPass] reqFix
            (applyRequestId reqFix (PyResponse.text "stop")))) :=
  ⟨⟨by intro x hx; simp at hx; subst hx; rfl, rfl⟩,
   middleware_chain_contract.1 [mwPass] [mwPass] mwStop reqFix (PyResponse.text "stop")
     (by intro x hx; simp at hx; subst hx; rfl) rfl,
   by
     have h : run_before [mwStop, mwPass] reqFix = .Respond (PyResponse.text "stop") := rfl
     exact ⟨h, middleware_chain_contract.2.2.2 [] [mwStop, mwPass] reqFix matchFix
       (PyResponse.text "stop") h⟩⟩

/-! C8. -/

/-- A character that is neither `+` nor `%` decodes to itself. -/
theorem urlDecodeList_plain (c : Char) (l : List Char)
    (h1 : c ≠ '+') (h2 : c ≠ '%') :
    urlDecodeList (c :: l) = c :: urlDecodeList l := by
  rw [urlDecodeList.eq_def]
  split <;> simp_all

/-- The hex digit characters round-trip through `hexDigit?`. -/
theorem hexDigit?_hexDigitChar (n : Nat) (h : n < 16) :
    hexDigit? (hexDigitChar n) = some n := by
  interval_cases n <;> decide

/-- Hex digit characters are never the sign `+`. -/
theorem hexDigitChar_ne_plus (n : Nat) (h : n < 16) : hexDigitChar n ≠ '+' := by
  interval_cases n <;> decide

/-- Decoding inverts the encoding of a single suitable character. -/
theorem urlDecodeList_encodeChar (c : Char) (l : List Char)
    (hascii : c.toNat < 128) (hp : c ≠ '%') (hplus : c ≠ '+') :
    urlDecodeList (percentEncodeChar c ++ l) = c :: urlDecodeList l := by
  unfold percentEncodeChar
  by_cases hsp : c = ' '
  · subst hsp
    simp [urlDecodeList]
  · rw [if_neg hsp]
    by_cases halnum : c.isAlphanum = true ∨ c = '-' ∨ c = '_' ∨ c = '.' ∨ c = '~'
    · rw [if_pos halnum]
      exact urlDecodeList_plain c l hplus hp
    · rw [if_neg halnum]
      have hdiv : c.toNat / 16 < 16 := by omega
      have hmod : c.toNat % 16 < 16 := Nat.mod_lt _ (by norm_num)
      show urlDecodeList ('%' :: hexDigitChar (c.toNat / 16) ::
        hexDigitChar (c.toNat % 16) :: l) = c :: urlDecodeList l
      have hstep : urlDecodeList ('%' :: hexDigitChar (c.toNat / 16) ::
          hexDigitChar (c.toNat % 16) :: l) =
          (match hexPair (hexDigitChar (c.toNat / 16)) (hexDigitChar (c.toNat % 16)) with
           | some n => Char.ofNat n :: urlDecodeList l
           | none => '%' :: hexDigitChar (c.toNat / 16) ::
               hexDigitChar (c.toNat % 16) :: urlDecodeList l) := rfl
      rw [hstep]
      have hpair : hexPair (hexDigitChar (c.toNat / 16)) (hexDigitChar (c.toNat % 16)) =
          some c.toNat := by
        unfold hexPair
        rw [if_neg (hexDigitChar_ne_plus _ hdiv)]
        rw [hexDigit?_hexDigitChar _ hdiv, hexDigit?_hexDigitChar _ hmod]
        simp [Nat.div_add_mod]
      rw [hpair]
      simp [Char.ofNat_toNat]

/-- C8: url decoding is a left inverse of percent encoding — for every
ASCII string without a raw `%` and without `+`, `url_decode` applied to the
spec's percent-encoded form (`+` for space, `%HH` for escaped bytes) gives
the string back, both on character lists and on strings. -/
theorem url_decode_left_inverse :
    (∀ cs : List Char, (∀ c ∈ cs, c.toNat < 128) →
        (∀ c ∈ cs, c ≠ '%' ∧ c ≠ '+') →
        urlDecodeList (percentEncode cs) = cs)
    ∧ (∀ s : String, (∀ c ∈ s.toList, c.toNat < 128) →
        (∀ c ∈ s.toList, c ≠ '%' ∧ c ≠ '+') →
        url_decode (String.mk (percentEncode s.toList)) = s) := by
  have base : ∀ cs : List Char, (∀ c ∈ cs, c.toNat < 128) →
      (∀ c ∈ cs, c ≠ '%' ∧ c ≠ '+') →
      urlDecodeList (percentEncode cs) = cs := by
    intro cs
    induction cs with
    | nil => intro _ _; rfl
    | cons c rest ih =>
      intro hascii hnp
      have hc : c.toNat < 128 := hascii c (by simp)
      have hcp : c ≠ '%' ∧ c ≠ '+' := hnp c (by simp)
      have ihr : urlDecodeList (percentEncode rest) = rest :=
        ih (fun d hd => hascii d (by simp [hd])) (fun d hd => hnp d (by simp [hd]))
      have hflat : percentEncode (c :: rest) =
          percentEncodeChar c ++ percentEncode rest := by
        simp [percentEncode]
      rw [hflat, urlDecodeList_encodeChar c _ hc hcp.1 hcp.2, ihr]
  refine ⟨base, ?_⟩
  intro s h1 h2
  unfold url_decode
  have : (String.mk (percentEncode s.toList)).toList = percentEncode s.toList := rfl
  rw [this, base s.toList h1 h2]
  cases s
  rfl

/-- Witness for C8 at the string `"New York!"`. -/
theorem url_decode_left_inverse_witness :
    ((∀ c ∈ "New York!".toList, c.toNat < 128)
      ∧ (∀ c ∈ "New York!".toList, c ≠ '%' ∧ c ≠ '+'))
    ∧ url_decode (String.mk (percentEncode "New York!".toList)) = "New York!" :=
  ⟨⟨by decide, by decide⟩,
   url_decode_left_inverse.2 "New York!" (by decide) (by decide)⟩

/-! C4. -/

/-- Setting one header leaves reads of a different header unchanged. -/
theorem header_set_header_ne (req : PyRequest) (name name' value : String)
    (h : toLowerStr name' ≠ toLowerStr name) :
    (req.set_header name value).header name' = req.header name' := by
  unfold PyRequest.set_header PyRequest.header
  exact lookupA_insertA_ne req.headers (toLowerStr name) (toLowerStr name') value h

/-- Request-id injection leaves the method unchanged. -/
theorem injectRequestId_method (rid : String) (req : PyRequest) :
    (injectRequestId rid req).method = req.method := by
  unfold injectRequestId
  split <;> rfl

/-- Request-id injection leaves the path unchanged. -/
theorem injectRequestId_path (rid : String) (req : PyRequest) :
    (injectRequestId rid req).path = req.path := by
  unfold injectRequestId
  split <;> rfl

/-- Request-id injection leaves the Authorization header unchanged. -/
theorem injectRequestId_header_auth (rid : String) (req : PyRequest) :
    (injectRequestId rid req).header "authorization" = req.header "authorization" := by
  unfold injectRequestId
  split
  · exact header_set_header_ne req "x-request-id" "authorization" rid (by decide)
  · rfl

/-- C4: the auth gate of `process_request` on a matched route with
`auth_required` set: with no auth configuration the pipeline returns the
500 misconfiguration JSON response; with a missing Authorization header or
one without the `Bearer ` scheme it returns 401; when HS256 decoding of the
bearer token with the configured secret fails it returns 401; and on
successful decoding the request's `claims` are set to the decoded claims
and processing continues to the middleware/handler stage. -/
theorem auth_gate_contract
    (decode : String → String → Option Claims) (rid : String) (router : Router)
    (handlers : List HandlerFn) (middleware : List MW) (req : PyRequest)
    (matched : Match)
    (hmatch : router.match_route req.method req.path = .ok matched)
    (hauth : matched.auth_required = true) :
    (process_request decode rid router handlers none middleware req =
        some ({ injectRequestId rid req with typed_params := matched.typed_params },
          misconfiguredResp))
    ∧ (∀ cfg : AuthConfig,
        (req.header "authorization").bind bearerToken = none →
        process_request decode rid router handlers (some cfg) middleware req =
          some ({ injectRequestId rid req with typed_params := matched.typed_params },
            missingAuthResp))
    ∧ (∀ (cfg : AuthConfig) (token : String),
        (req.header "authorization").bind bearerToken = some token →
        decode token cfg.secret = none →
        process_request decode rid router handlers (some cfg) middleware req =
          some ({ injectRequestId rid req with typed_params := matched.typed_params },
            unauthorizedResp))
    ∧ (∀ (cfg : AuthConfig) (token : String) (claims : Claims),
        (req.header "authorization").bind bearerToken = some token →
        decode token cfg.secret = some claims →
        process_request decode rid router handlers (some cfg) middleware req =
          handlerStage handlers middleware
            { { injectRequestId rid req with typed_params := matched.typed_params }
              with claims := some claims } matched) := by
  have hm : router.match_route (injectRequestId rid req).method
      (injectRequestId rid req).path = .ok matched := by
    rw [injectRequestId_method, injectRequestId_path]
    exact hmatch
  have hha : ({ injectRequestId rid req with
      typed_params := matched.typed_params } : PyRequest).header "authorization" =
      req.header "authorization" := by
    show (injectRequestId rid req).header "authorization" = req.header "authorization"
    exact injectRequestId_header_auth rid req
  refine ⟨?_, ?_, ?_, ?_⟩
  · simp only [process_request, hm, hauth, if_true]
  · intro cfg hnone
    simp only [process_request, hm, hauth, if_true, hha, hnone]
  · intro cfg token htok hdec
    simp only [process_request, hm, hauth, if_true, hha, htok, hdec]
  · intro cfg token claims htok hdec
    simp only [process_request, hm, hauth, if_true, hha, htok, hdec]

/-- Witness for C4 on a concrete one-route server with secret `s3cret`. -/
theorem auth_gate_contract_witness :
    (authRouter.match_route reqNoHdr.method reqNoHdr.path = .ok matchSecret
      ∧ matchSecret.auth_required = true)
    ∧ (∃ q, process_request decodeFix "rid0" authRouter [] none [] reqNoHdr =
        some (q, misconfiguredResp))
    ∧ (∃ q, process_request decodeFix "rid0" authRouter [] (some cfgFix) [] reqNoHdr =
        some (q, missingAuthResp))
    ∧ (∃ q, process_request decodeFix "rid0" authRouter [] (some cfgFix) [] reqBadTok =
        some (q, unauthorizedResp))
    ∧ (∃ q, q.claims = some "claims-ok" ∧
        process_request decodeFix "rid0" authRouter [] (some cfgFix) [] reqGoodTok =
          handlerStage [] [] q matchSecret) :=
  ⟨⟨by decide, rfl⟩,
   ⟨_, (auth_gate_contract decodeFix "rid0" authRouter [] [] reqNoHdr matchSecret
     (by decide) rfl).1⟩,
   ⟨_, (auth_gate_contract decodeFix "rid0" authRouter [] [] reqNoHdr matchSecret
     (by decide) rfl).2.1 cfgFix (by decide)⟩,
   ⟨_, (auth_gate_contract decodeFix "rid0" authRouter [] [] reqBadTok matchSecret
     (by decide) rfl).2.2.1 cfgFix "tok-bad" (by decide) (by decide)⟩,
   ⟨_, rfl, (auth_gate_contract decodeFix "rid0" authRouter [] [] reqGoodTok matchSecret
     (by decide) rfl).2.2.2 cfgFix "tok-good" "claims-ok" (by decide) (by decide)⟩⟩

/-! C5. -/

/-- C5: the body-size gate — when the declared `Content-Length` parses to a
value over `max_body_size`, request construction fails with
`PayloadTooLarge` whatever the body is (no body read is consulted) and the
server answers 413 with body `Payload Too Large`; when the declared length
is absent, unparseable or within bounds but the collected body is longer
than `max_body_size`, the result is the same `PayloadTooLarge` and 413; in
both cases the response is produced for every handler list, so no route
handler is invoked. -/
theorem payload_too_large_gate :
    (∀ (wire : WireRequest) (max_body_size n : Nat) (len_str : String),
        lookupA (wireHeaders wire) "content-length" = some len_str →
        parseU64 len_str = some n →
        max_body_size < n →
        (∀ body : Option (List Nat),
          from_hyper_with_limit { wire with body := body } max_body_size =
            .error (.PayloadTooLarge max_body_size n))
        ∧ (∀ (body : Option (List Nat)) (decode : String → String → Option Claims)
            (rid : String) (router : Router) (handlers : List HandlerFn)
            (auth_config : Option AuthConfig) (middleware : List MW) (remote_ip : String),
            handle_request decode rid { wire with body := body } router handlers
              auth_config middleware remote_ip max_body_size =
              some wirePayloadTooLargeResp))
    ∧ (∀ (wire : WireRequest) (max_body_size : Nat) (bytes : List Nat),
        (∀ (len_str : String) (n : Nat),
          lookupA (wireHeaders wire) "content-length" = some len_str →
          parseU64 len_str = some n → n ≤ max_body_size) →
        wire.body = some bytes →
        max_body_size < bytes.length →
        from_hyper_with_limit wire max_body_size =
          .error (.PayloadTooLarge max_body_size bytes.length)
        ∧ (∀ (decode : String → String → Option Claims) (rid : String)
            (router : Router) (handlers : List HandlerFn)
            (auth_config : Option AuthConfig) (middleware : List MW) (remote_ip : String),
            handle_request decode rid wire router handlers auth_config middleware
              remote_ip max_body_size = some wirePayloadTooLargeResp)) := by
  constructor
  · intro wire max_body_size n len_str hlook hparse hlt
    have hfh : ∀ body : Option (List Nat),
        from_hyper_with_limit { wire with body := body } max_body_size =
          .error (.PayloadTooLarge max_body_size n) := by
      intro body
      have hw : wireHeaders { wire with body := body } = wireHeaders wire := rfl
      simp only [from_hyper_with_limit, hw, hlook, hparse, if_pos hlt]
    refine ⟨hfh, ?_⟩
    intro body decode rid router handlers auth_config middleware remote_ip
    simp only [handle_request, hfh body]
  · intro wire max_body_size bytes hdecl hbody hlen
    have hfh : from_hyper_with_limit wire max_body_size =
        .error (.PayloadTooLarge max_body_size bytes.length) := by
      simp only [from_hyper_with_limit]
      rcases hl : lookupA (wireHeaders wire) "content-length" with _ | len_str
      · simp only [hbody, if_pos hlen]
      · rcases hp : parseU64 len_str with _ | n
        · simp only [hp, hbody, if_pos hlen]
        · have hle : ¬ (max_body_size < n) := Nat.not_lt.mpr (hdecl len_str n hl hp)
          simp only [hp, if_neg hle, hbody, if_pos hlen]
    refine ⟨hfh, ?_⟩
    intro decode rid router handlers auth_config middleware remote_ip
    simp only [handle_request, hfh]

/-- Witness for C5: a declared length of 32 against a limit of 16, and an
undeclared 20-byte body against the same limit. -/
theorem payload_too_large_gate_witness :
    (lookupA (wireHeaders bigCLWire) "content-length" = some "32"
      ∧ parseU64 "32" = some 32 ∧ 16 < 32)
    ∧ from_hyper_with_limit { bigCLWire with body := some [1, 2, 3] } 16 =
        .error (.PayloadTooLarge 16 32)
    ∧ handle_request decodeFix "rid0" { bigCLWire with body := some [1, 2, 3] }
        Router.new [] none [] "1.2.3.4" 16 = some wirePayloadTooLargeResp
    ∧ (bigBodyWire.body = some (List.replicate 20 7) ∧ 16 < 20)
    ∧ from_hyper_with_limit bigBodyWire 16 = .error (.PayloadTooLarge 16 20)
    ∧ handle_request decodeFix "rid0" bigBodyWire Router.new [] none [] "1.2.3.4" 16 =
        some wirePayloadTooLargeResp :=
  ⟨⟨by decide, by decide, by decide⟩,
   (payload_too_large_gate.1 bigCLWire 16 32 "32" (by decide) (by decide)
     (by decide)).1 (some [1, 2, 3]),
   (payload_too_large_gate.1 bigCLWire 16 32 "32" (by decide) (by decide)
     (by decide)).2 (some [1, 2, 3]) decodeFix "rid0" Router.new [] none [] "1.2.3.4",
   ⟨rfl, by decide⟩,
   (payload_too_large_gate.2 bigBodyWire 16 (List.replicate 20 7)
     (by
       intro len_str n h hp
       have hn : lookupA (wireHeaders bigBodyWire) "content-length" = none := by decide
       rw [hn] at h
       exact Option.noConfusion h)
     rfl (by decide)).1,
   (payload_too_large_gate.2 bigBodyWire 16 (List.replicate 20 7)
     (by
       intro len_str n h hp
       have hn : lookupA (wireHeaders bigBodyWire) "content-length" = none := by decide
       rw [hn] at h
       exact Option.noConfusion h)
     rfl (by decide)).2 decodeFix "rid0" Router.new [] none [] "1.2.3.4"⟩

/-! Trie lemmas for C2 and C6. -/

/-- Trie priority is irreflexive. -/
theorem shapeLt_irrefl (p : List PatSeg) : shapeLt p p = false := by
  induction p with
  | nil => rfl
  | cons h t ih => cases h <;> simpa [shapeLt] using ih

/-- Folding the priority choice over copies of the accumulator is the
accumulator. -/
theorem foldl_best_const (acc : List PatSeg × Nat) (rest : List (List PatSeg × Nat))
    (h : ∀ f ∈ rest, f = acc) :
    rest.foldl (fun a f => if shapeLt f.1 a.1 then f else a) acc = acc := by
  induction rest with
  | nil => rfl
  | cons f t ih =>
    have hf : f = acc := h f (by simp)
    subst hf
    simp only [List.foldl_cons, shapeLt_irrefl, if_neg Bool.false_ne_true]
    exact ih (fun g hg => h g (by simp [hg]))

/-- When exactly one inserted pattern matches the path, the trie returns its
handler id and captures. -/
theorem trieAt_unique (entries : List (List PatSeg × Nat)) (segs : List String)
    (pat : List PatSeg) (hid : Nat)
    (hmem : (pat, hid) ∈ entries)
    (hm : patMatch pat segs = true)
    (huniq : ∀ e ∈ entries, patMatch e.1 segs = true → e = (pat, hid)) :
    trieAt entries segs = some (hid, captures pat segs) := by
  have hfmem : (pat, hid) ∈ entries.filter (fun e => patMatch e.1 segs) :=
    List.mem_filter.mpr ⟨hmem, hm⟩
  rcases hfl : entries.filter (fun e => patMatch e.1 segs) with _ | ⟨e, rest⟩
  · rw [hfl] at hfmem
    cases hfmem
  · have hall : ∀ f ∈ e :: rest, f = (pat, hid) := by
      intro f hf
      have hf' : f ∈ entries.filter (fun e => patMatch e.1 segs) := by
        rw [hfl]; exact hf
      have := List.mem_filter.mp hf'
      exact huniq f this.1 this.2
    have he : e = (pat, hid) := hall e (by simp)
    subst he
    simp only [trieAt, hfl]
    rw [foldl_best_const _ rest (fun f hf => hall f (by simp [hf]))]

/-- A path matched by none of the inserted patterns misses the trie. -/
theorem trieAt_none (entries : List (List PatSeg × Nat)) (segs : List String)
    (h : ∀ e ∈ entries, patMatch e.1 segs = false) :
    trieAt entries segs = none := by
  have hnil : entries.filter (fun e => patMatch e.1 segs) = [] := by
    apply List.filter_eq_nil_iff.mpr
    intro e he
    simp [h e he]
  simp only [trieAt, hnil]

/-! C2. -/

/-- Counterexample to C2 as stated: in a router holding `GET /users/{id}`
(handler id 0) and `GET /users/me` (handler id 1), the path `/users/me`
instantiates the normalized pattern of the id-0 route, yet `match_route`
returns handler id 1 — the static route shadows the parameter route. -/
theorem match_route_shadowing_cex :
    (Router.new.add_route .Get "/users/\x7bid\x7d" false).1 = .ok 0
    ∧ ((Router.new.add_route .Get "/users/\x7bid\x7d" false).2.add_route
        .Get "/users/me" false).1 = .ok 1
    ∧ patMatch (parsePattern (RouteInfo.new 0 "/users/\x7bid\x7d" false).match_pattern)
        (pathSegments "/users/me") = true
    ∧ shadowRouter.match_route .Get "/users/me" =
        .ok { handler_id := 1, params := [], typed_params := [], auth_required := false } := by
  decide

/-- C2 (amended): for every route registered under method `m`, matching a
path that instantiates the route's normalized pattern returns the
registered handler id with the registered auth flag, provided no other
route registered under `m` also matches the path; and for any method under
which no registered route matches the path — in particular a method with no
routes at all — `match_route` returns `RouteNotFound` for that path, the
same error as for an absent path. -/
theorem match_route_registered :
    (∀ (r : Router) (method : Method) (path : String) (mr : MethodRoutes)
        (pat : List PatSeg) (handler_id : Nat) (ri : RouteInfo),
        lookupA r.method_routes method = some mr →
        (pat, handler_id) ∈ mr.router →
        mr.routes.find? (fun x => x.handler_id == handler_id) = some ri →
        patMatch pat (pathSegments path) = true →
        (∀ e ∈ mr.router, patMatch e.1 (pathSegments path) = true → e = (pat, handler_id)) →
        ∃ m : Match, r.match_route method path = .ok m
          ∧ m.handler_id = handler_id ∧ m.auth_required = ri.auth_required)
    ∧ (∀ (r : Router) (method : Method) (path : String),
        (∀ mr, lookupA r.method_routes method = some mr →
          ∀ e ∈ mr.router, patMatch e.1 (pathSegments path) = false) →
        r.match_route method path = .error (.RouteNotFound path)) := by
  constructor
  · intro r method path mr pat handler_id ri hlook hmem hfind hm huniq
    have hmr : r.match_route method path = .ok
        { handler_id := handler_id,
          params := captures pat (pathSegments path),
          typed_params := (captures pat (pathSegments path)).map (fun nv =>
            (nv.1, match convert_param nv.2 (ri.get_param_type nv.1) with
                   | .ok v => v
                   | .error _ => .String nv.2)),
          auth_required := ri.auth_required } := by
      simp only [Router.match_route, hlook,
        trieAt_unique mr.router (pathSegments path) pat handler_id hmem hm huniq, hfind]
    exact ⟨_, hmr, rfl, rfl⟩
  · intro r method path h
    rcases hl : lookupA r.method_routes method with _ | mr
    · simp only [Router.match_route, hl]
    · simp only [Router.match_route, hl,
        trieAt_none mr.router (pathSegments path) (h mr hl)]

/-- Witness for C2: in `shadowRouter` the parameter route is the unique
match of `/users/42` and is returned with its id 0; `POST /users/me` (no
POST routes) and `GET /nope` (no matching pattern) both give
`RouteNotFound`. -/
theorem match_route_registered_witness :
    (lookupA shadowRouter.method_routes .Get = some shadowMR
      ∧ (parsePattern shadowRI.match_pattern, 0) ∈ shadowMR.router
      ∧ shadowMR.routes.find? (fun x => x.handler_id == 0) = some shadowRI
      ∧ patMatch (parsePattern shadowRI.match_pattern) (pathSegments "/users/42") = true)
    ∧ (∃ m : Match, shadowRouter.match_route .Get "/users/42" = .ok m
        ∧ m.handler_id = 0 ∧ m.auth_required = shadowRI.auth_required)
    ∧ shadowRouter.match_route .Post "/users/me" = .error (.RouteNotFound "/users/me")
    ∧ shadowRouter.match_route .Get "/nope" = .error (.RouteNotFound "/nope") :=
  ⟨⟨by decide, by decide, by decide, by decide⟩,
   match_route_registered.1 shadowRouter .Get "/users/42" shadowMR
     (parsePattern shadowRI.match_pattern) 0 shadowRI
     (by decide) (by decide) (by decide) (by decide) (by decide),
   match_route_registered.2 shadowRouter .Post "/users/me"
     (by
       intro mr h
       have hn : lookupA shadowRouter.method_routes .Post = none := by decide
       rw [hn] at h
       exact Option.noConfusion h),
   match_route_registered.2 shadowRouter .Get "/nope"
     (by
       intro mr h
       have hs : lookupA shadowRouter.method_routes .Get = some shadowMR := by decide
       rw [hs] at h
       injection h with h
       subst h
       decide)⟩

/-! C6. -/

/-- C6: a captured path parameter whose raw segment fails conversion to the
route's declared type is bound as `String(raw)` in `typed_params`, and
every error `match_route` can return is `RouteNotFound` — a conversion
failure never produces a match error. -/
theorem typed_param_fallback :
    (∀ (r : Router) (method : Method) (path : String) (mr : MethodRoutes)
        (handler_id : Nat) (prs : List (String × String)) (ri : RouteInfo)
        (name raw : String) (e : Error),
        lookupA r.method_routes method = some mr →
        trieAt mr.router (pathSegments path) = some (handler_id, prs) →
        mr.routes.find? (fun x => x.handler_id == handler_id) = some ri →
        (name, raw) ∈ prs →
        convert_param raw (ri.get_param_type name) = .error e →
        ∃ m : Match, r.match_route method path = .ok m
          ∧ m.params = prs
          ∧ (name, ParamValue.String raw) ∈ m.typed_params)
    ∧ (∀ (r : Router) (method : Method) (path : String) (e : Error),
        r.match_route method path = .error e → e = .RouteNotFound path) := by
  constructor
  · intro r method path mr handler_id prs ri name raw e hlook htrie hfind hmem hconv
    have hmr : r.match_route method path = .ok
        { handler_id := handler_id,
          params := prs,
          typed_params := prs.map (fun nv =>
            (nv.1, match convert_param nv.2 (ri.get_param_type nv.1) with
                   | .ok v => v
                   | .error _ => .String nv.2)),
          auth_required := ri.auth_required } := by
      simp only [Router.match_route, hlook, htrie, hfind]
    refine ⟨_, hmr, rfl, ?_⟩
    show (name, ParamValue.String raw) ∈ prs.map (fun nv =>
      (nv.1, match convert_param nv.2 (ri.get_param_type nv.1) with
             | .ok v => v
             | .error _ => .String nv.2))
    have := List.mem_map_of_mem (fun nv : String × String =>
      (nv.1, match convert_param nv.2 (ri.get_param_type nv.1) with
             | .ok v => v
             | .error _ => ParamValue.String nv.2)) hmem
    simpa [hconv] using this
  · intro r method path e h
    rcases hl : lookupA r.method_routes method with _ | mr
    · have hv : r.match_route method path = .error (.RouteNotFound path) := by
        simp only [Router.match_route, hl]
      rw [hv] at h
      exact (Except.error.inj h).symm
    · rcases ht : trieAt mr.router (pathSegments path) with _ | x
      · have hv : r.match_route method path = .error (.RouteNotFound path) := by
          simp only [Router.match_route, hl, ht]
        rw [hv] at h
        exact (Except.error.inj h).symm
      · obtain ⟨hid, prs⟩ := x
        rcases hf : mr.routes.find? (fun ri => ri.handler_id == hid) with _ | ri
        · have hv : r.match_route method path = .error (.RouteNotFound path) := by
            simp only [Router.match_route, hl, ht, hf]
          rw [hv] at h
          exact (Except.error.inj h).symm
        · have hv : r.match_route method path = .ok
              { handler_id := hid,
                params := prs,
                typed_params := prs.map (fun nv =>
                  (nv.1, match convert_param nv.2 (ri.get_param_type nv.1) with
                         | .ok v => v
                         | .error _ => .String nv.2)),
                auth_required := ri.auth_required } := by
            simp only [Router.match_route, hl, ht, hf]
          rw [hv] at h
          exact Except.noConfusion h

/-- Witness for C6: the route `GET /users/{id:int}` matched against
`/users/abc` binds `id` to `String "abc"`. -/
theorem typed_param_fallback_witness :
    (lookupA intRouter.method_routes .Get = some intMR
      ∧ trieAt intMR.router (pathSegments "/users/abc") = some (0, [("id", "abc")])
      ∧ intMR.routes.find? (fun x => x.handler_id == 0) = some intRI
      ∧ convert_param "abc" (intRI.get_param_type "id") =
          .error (.InvalidRoutePattern "abc" "Cannot convert abc to integer"))
    ∧ (∃ m : Match, intRouter.match_route .Get "/users/abc" = .ok m
        ∧ m.params = [("id", "abc")]
        ∧ ("id", ParamValue.String "abc") ∈ m.typed_params) :=
  ⟨⟨by decide, by decide, by decide, by decide⟩,
   typed_param_fallback.1 intRouter .Get "/users/abc" intMR 0 [("id", "abc")] intRI
     "id" "abc" (.InvalidRoutePattern "abc" "Cannot convert abc to integer")
     (by decide) (by decide) (by decide) (by decide) (by decide)⟩

/-! C1. -/

/-- C1 fails on the code: after a failed duplicate registration the handler
ids are no longer dense and no longer equal the insertion index of the
`Server`'s handler vector.  Registering `/a` (ok, id 0), `/a` again
(`InvalidRoutePattern`, but the counter advances), `/b` (ok, id 2 — its
handler `hB` sits at index 1) and `/c` (ok, id 3) leaves three handlers;
`GET /b` matches handler id 2 so `handlers[2]` serves `hC`'s response `C`
instead of the registered `hB`, and `GET /c` matches handler id 3 which is
out of bounds — the Rust code panics there (modelled as `none`). -/
theorem handler_id_gap_after_failed_add :
    gap1.1 = .ok ()
    ∧ gap2.1 = .error (.InvalidRoutePattern "/a" "insert conflict")
    ∧ gap3.1 = .ok () ∧ gap4.1 = .ok ()
    ∧ gapServer.handlers.length = 3
    ∧ (gapServer.router.match_route .Get "/b").map Match.handler_id = .ok 2
    ∧ (hB (PyRequest.new .Get "/b" [] none) matchFix).body = "B"
    ∧ (process_request decodeFix "rid0" gapServer.router gapServer.handlers none []
        (PyRequest.new .Get "/b" [] none)).map (fun p => p.2.body) = some "C"
    ∧ (gapServer.router.match_route .Get "/c").map Match.handler_id = .ok 3
    ∧ process_request decodeFix "rid0" gapServer.router gapServer.handlers none []
        (PyRequest.new .Get "/c" [] none) = none := by
  decide

/-! Arithmetic lemmas for the token-bucket bound (C7). -/

theorem floorNatQ_mono {x y : ℚ} (h : x ≤ y) : floorNatQ x ≤ floorNatQ y :=
  Int.toNat_le_toNat (Int.floor_le_floor h)

theorem floorNatQ_superadd {x y : ℚ} (hx : 0 ≤ x) (hy : 0 ≤ y) :
    floorNatQ x + floorNatQ y ≤ floorNatQ (x + y) := by
  unfold floorNatQ
  have hfx : (0 : ℤ) ≤ ⌊x⌋ := Int.floor_nonneg.mpr hx
  have hfy : (0 : ℤ) ≤ ⌊y⌋ := Int.floor_nonneg.mpr hy
  have hle : ⌊x⌋ + ⌊y⌋ ≤ ⌊x + y⌋ := by
    apply Int.le_floor.mpr
    push_cast
    exact add_le_add (Int.floor_le x) (Int.floor_le y)
  calc ⌊x⌋.toNat + ⌊y⌋.toNat = (⌊x⌋ + ⌊y⌋).toNat := (Int.toNat_add hfx hfy).symm
    _ ≤ ⌊x + y⌋.toNat := Int.toNat_le_toNat hle

theorem floorNatQ_add_lt_one {x d : ℚ} (hx : 0 ≤ x) (h1 : d < 1) :
    floorNatQ (x + d) ≤ floorNatQ x + 1 := by
  unfold floorNatQ
  have hle : ⌊x + d⌋ ≤ ⌊x⌋ + 1 := by
    have : ⌊x + d⌋ ≤ ⌊x + 1⌋ := Int.floor_le_floor (by linarith)
    simpa [Int.floor_add_one] using this
  have hfx : (0 : ℤ) ≤ ⌊x⌋ := Int.floor_nonneg.mpr hx
  calc ⌊x + d⌋.toNat ≤ (⌊x⌋ + 1).toNat := Int.toNat_le_toNat hle
    _ = ⌊x⌋.toNat + 1 := by omega

theorem floorNatQ_eq_zero_lt_one {x : ℚ} (h : floorNatQ x = 0) :
    x < 1 := by
  by_contra hc
  push_neg at hc
  have : (1 : ℤ) ≤ ⌊x⌋ := by
    exact_mod_cast Int.le_floor.mpr (by exact_mod_cast hc)
  unfold floorNatQ at h
  omega

theorem chain'_le_drop_mid {a b : ℚ} {l : List ℚ}
    (h : List.Chain' (· ≤ ·) (a :: b :: l)) : List.Chain' (· ≤ ·) (a :: l) := by
  obtain ⟨hab, hbl⟩ := List.chain'_cons.mp h
  cases l with
  | nil => simp
  | cons c l' =>
    obtain ⟨hbc, hcl⟩ := List.chain'_cons.mp hbl
    exact List.chain'_cons.mpr ⟨le_trans hab hbc, hcl⟩

/-- One-step unfolding of `brun`. -/
theorem brun_cons (C R : Nat) (b : Bucket) (t : ℚ) (ts : List ℚ) :
    brun C R b (t :: ts) =
      (if (bstep C R b t).1 then 1 else 0) + brun C R (bstep C R b t).2 ts := rfl

/-- `brun` on an admitting first step. -/
theorem brun_cons_true (C R : Nat) (b b' : Bucket) (t : ℚ) (ts : List ℚ)
    (hbs : bstep C R b t = (true, b')) :
    brun C R b (t :: ts) = 1 + brun C R b' ts := by
  rw [brun_cons, hbs]
  simp

/-- `brun` on a denying first step. -/
theorem brun_cons_false (C R : Nat) (b b' : Bucket) (t : ℚ) (ts : List ℚ)
    (hbs : bstep C R b t = (false, b')) :
    brun C R b (t :: ts) = brun C R b' ts := by
  rw [brun_cons, hbs]
  simp

/-- The four possible outcomes of one `allow` step on a bucket: refill then
admit, refill then deny, no refill then admit, no refill then deny. -/
theorem bstep_spec (C R : Nat) (b : Bucket) (t : ℚ) :
    (0 < floorNatQ (max (t - b.last_refill) 0 * R)
      ∧ 0 < min (b.tokens + floorNatQ (max (t - b.last_refill) 0 * R)) C
      ∧ bstep C R b t =
        (true, ⟨min (b.tokens + floorNatQ (max (t - b.last_refill) 0 * R)) C - 1, t⟩))
    ∨ (0 < floorNatQ (max (t - b.last_refill) 0 * R)
      ∧ min (b.tokens + floorNatQ (max (t - b.last_refill) 0 * R)) C = 0
      ∧ bstep C R b t = (false, ⟨0, t⟩))
    ∨ (floorNatQ (max (t - b.last_refill) 0 * R) = 0 ∧ 0 < b.tokens
      ∧ bstep C R b t = (true, ⟨b.tokens - 1, b.last_refill⟩))
    ∨ (floorNatQ (max (t - b.last_refill) 0 * R) = 0 ∧ b.tokens = 0
      ∧ bstep C R b t = (false, b)) := by
  by_cases hr : 0 < floorNatQ (max (t - b.last_refill) 0 * R)
  · by_cases h0 : min (b.tokens + floorNatQ (max (t - b.last_refill) 0 * R)) C = 0
    · refine Or.inr (Or.inl ⟨hr, h0, ?_⟩)
      simp [bstep, if_pos hr, h0]
    · refine Or.inl ⟨hr, Nat.pos_of_ne_zero h0, ?_⟩
      simp [bstep, if_pos hr, h0]
  · have hr0 : floorNatQ (max (t - b.last_refill) 0 * R) = 0 := by omega
    by_cases h0 : b.tokens = 0
    · refine Or.inr (Or.inr (Or.inr ⟨hr0, h0, ?_⟩))
      simp [bstep, if_neg hr, h0]
    · refine Or.inr (Or.inr (Or.inl ⟨hr0, Nat.pos_of_ne_zero h0, ?_⟩))
      simp [bstep, if_neg hr, h0]

/-- A zero-capacity bucket admits nothing once empty. -/
theorem brun_capacity_zero (R : Nat) :
    ∀ (ts : List ℚ) (b : Bucket), b.tokens = 0 → brun 0 R b ts = 0 := by
  intro ts
  induction ts with
  | nil => intro b _; rfl
  | cons t rest ih =>
    intro b hb
    rcases bstep_spec 0 R b t with ⟨_, hpos, _⟩ | ⟨_, _, hbs⟩ | ⟨_, hpos, _⟩ | ⟨_, _, hbs⟩
    · omega
    · rw [brun_cons, hbs]
      simpa using ih ⟨0, t⟩ rfl
    · omega
    · rw [brun_cons, hbs]
      simpa using ih b hb

/-- Wealth bound: a bucket serving nondecreasing request times bounded by
`M` admits at most its current tokens plus the credit accrued up to `M`. -/
theorem brun_wealth (C R : Nat) (M : ℚ) :
    ∀ (ts : List ℚ) (b : Bucket),
      List.Chain' (· ≤ ·) (b.last_refill :: ts) →
      (∀ t ∈ ts, t ≤ M) →
      brun C R b ts ≤ b.tokens + floorNatQ ((M - b.last_refill) * R) := by
  intro ts
  induction ts with
  | nil => intro b _ _; simp [brun]
  | cons t rest ih =>
    intro b hchain hmem
    have hlt : b.last_refill ≤ t := (List.chain'_cons.mp hchain).1
    have hchain2 : List.Chain' (· ≤ ·) (t :: rest) := (List.chain'_cons.mp hchain).2
    have htM : t ≤ M := hmem t (by simp)
    have hmem2 : ∀ u ∈ rest, u ≤ M := fun u hu => hmem u (by simp [hu])
    have hmax : max (t - b.last_refill) 0 = t - b.last_refill :=
      max_eq_left (by linarith)
    have hRnn : (0 : ℚ) ≤ (R : ℚ) := by positivity
    have hsplit : floorNatQ ((t - b.last_refill) * R) + floorNatQ ((M - t) * R) ≤
        floorNatQ ((M - b.last_refill) * R) := by
      have h1 : (0 : ℚ) ≤ (t - b.last_refill) * R := by
        apply mul_nonneg (by linarith) hRnn
      have h2 : (0 : ℚ) ≤ (M - t) * R := by
        apply mul_nonneg (by linarith) hRnn
      have := floorNatQ_superadd h1 h2
      have harg : (t - b.last_refill) * R + (M - t) * R = (M - b.last_refill) * R := by
        ring
      rwa [harg] at this
    have hmono : floorNatQ ((M - t) * R) ≤ floorNatQ ((M - b.last_refill) * R) := by
      apply floorNatQ_mono
      apply mul_le_mul_of_nonneg_right (by linarith) hRnn
    rcases bstep_spec C R b t with ⟨hr, hpos, hbs⟩ | ⟨hr, h0, hbs⟩ |
      ⟨hr, hpos, hbs⟩ | ⟨hr, h0, hbs⟩
    · rw [hmax] at hr hpos hbs
      rw [brun_cons_true C R b _ t rest hbs]
      have hIH := ih ⟨min (b.tokens + floorNatQ ((t - b.last_refill) * R)) C - 1, t⟩
        (by simpa using hchain2) hmem2
      simp only at hIH
      have hminle : min (b.tokens + floorNatQ ((t - b.last_refill) * R)) C ≤
          b.tokens + floorNatQ ((t - b.last_refill) * R) := Nat.min_le_left _ _
      omega
    · rw [hmax] at hr h0
      rw [brun_cons_false C R b _ t rest hbs]
      have hIH := ih ⟨0, t⟩ (by simpa using hchain2) hmem2
      simp only at hIH
      omega
    · rw [hmax] at hr
      rw [brun_cons_true C R b _ t rest hbs]
      have hchain3 : List.Chain' (· ≤ ·) (b.last_refill :: rest) :=
        chain'_le_drop_mid hchain
      have hIH := ih ⟨b.tokens - 1, b.last_refill⟩ (by simpa using hchain3) hmem2
      simp only at hIH
      omega
    · rw [hmax] at hr
      rw [brun_cons_false C R b _ t rest hbs]
      have hIH := ih b (chain'_le_drop_mid hchain) hmem2
      omega

/-- Window bound for a bucket in a state reachable after at least one call
(tokens empty or strictly below capacity): requests inside an interval of
length `T` admit at most `C + ⌊T·R⌋`. -/
theorem brun_window (C R : Nat) (b : Bucket) (ts : List ℚ) (s T : ℚ)
    (hchain : List.Chain' (· ≤ ·) (b.last_refill :: ts))
    (hwin : ∀ t ∈ ts, s ≤ t ∧ t ≤ s + T)
    (hinv : b.tokens = 0 ∨ b.tokens < C) :
    brun C R b ts ≤ C + floorNatQ (T * R) := by
  cases ts with
  | nil => simp [brun]
  | cons t rest =>
    have hlt : b.last_refill ≤ t := (List.chain'_cons.mp hchain).1
    have hchain2 : List.Chain' (· ≤ ·) (t :: rest) := (List.chain'_cons.mp hchain).2
    have hts : s ≤ t ∧ t ≤ s + T := hwin t (by simp)
    have hmem2 : ∀ u ∈ rest, u ≤ s + T := fun u hu => (hwin u (by simp [hu])).2
    have hRnn : (0 : ℚ) ≤ (R : ℚ) := by positivity
    have hTnn : (0 : ℚ) ≤ T := by linarith [hts.1, hts.2]
    have hmax : max (t - b.last_refill) 0 = t - b.last_refill :=
      max_eq_left (by linarith [hts.1])
    have hmonoT : floorNatQ ((s + T - t) * R) ≤ floorNatQ (T * R) := by
      apply floorNatQ_mono
      apply mul_le_mul_of_nonneg_right (by linarith [hts.1]) hRnn
    by_cases hC : C = 0
    · subst hC
      have h0 : b.tokens = 0 := by omega
      rw [brun_capacity_zero R (t :: rest) b h0]
      omega
    have hnorefill : floorNatQ ((t - b.last_refill) * R) = 0 →
        brun C R b (t :: rest) ≤ C + floorNatQ (T * R) := by
      intro hfl
      have hw := brun_wealth C R (s + T) (t :: rest) b hchain
        (fun u hu => (hwin u hu).2)
      have hlt1 : (t - b.last_refill) * R < 1 := floorNatQ_eq_zero_lt_one hfl
      have hle : (s + T - b.last_refill) * R ≤ T * R + (t - b.last_refill) * R := by
        have h1 : s + T - b.last_refill ≤ T + (t - b.last_refill) := by
          linarith [hts.1]
        calc (s + T - b.last_refill) * R ≤ (T + (t - b.last_refill)) * R :=
              mul_le_mul_of_nonneg_right h1 hRnn
          _ = T * R + (t - b.last_refill) * R := by ring
      have h2 : floorNatQ ((s + T - b.last_refill) * R) ≤ floorNatQ (T * R) + 1 :=
        le_trans (floorNatQ_mono hle)
          (floorNatQ_add_lt_one (mul_nonneg hTnn hRnn) hlt1)
      omega
    rcases bstep_spec C R b t with ⟨hr, hpos, hbs⟩ | ⟨hr, h0, hbs⟩ |
      ⟨hr, hpos, hbs⟩ | ⟨hr, h0, hbs⟩
    · rw [hmax] at hr hpos hbs
      rw [brun_cons_true C R b _ t rest hbs]
      have hw := brun_wealth C R (s + T) rest
        ⟨min (b.tokens + floorNatQ ((t - b.last_refill) * R)) C - 1, t⟩
        (by simpa using hchain2) hmem2
      simp only at hw
      have hminleC : min (b.tokens + floorNatQ ((t - b.last_refill) * R)) C ≤ C :=
        Nat.min_le_right _ _
      omega
    · rw [hmax] at hr h0
      rw [brun_cons_false C R b _ t rest hbs]
      have hw := brun_wealth C R (s + T) rest ⟨0, t⟩ (by simpa using hchain2) hmem2
      simp only at hw
      omega
    · rw [hmax] at hr
      exact hnorefill hr
    · rw [hmax] at hr
      exact hnorefill hr

/-- Window bound from bucket creation: the bucket is created at full
capacity by the first request, and the requests of an interval of length
`T` admit at most `C + ⌊T·R⌋`. -/
theorem brun_window_fresh (C R : Nat) (t : ℚ) (rest : List ℚ) (s T : ℚ)
    (hchain : List.Chain' (· ≤ ·) (t :: rest))
    (hwin : ∀ u ∈ t :: rest, s ≤ u ∧ u ≤ s + T) :
    brun C R (⟨C, t⟩ : Bucket) (t :: rest) ≤ C + floorNatQ (T * R) := by
  have hts : s ≤ t ∧ t ≤ s + T := hwin t (by simp)
  have hmem2 : ∀ u ∈ rest, u ≤ s + T := fun u hu => (hwin u (by simp [hu])).2
  have hRnn : (0 : ℚ) ≤ (R : ℚ) := by positivity
  by_cases hC : C = 0
  · subst hC
    rw [brun_capacity_zero R (t :: rest) ⟨0, t⟩ rfl]
    omega
  · have hbs : bstep C R (⟨C, t⟩ : Bucket) t = (true, ⟨C - 1, t⟩) := by
      simp [bstep, floorNatQ, hC]
    rw [brun_cons_true C R _ _ t rest hbs]
    have hw := brun_wealth C R (s + T) rest ⟨C - 1, t⟩
      (by simpa using hchain) hmem2
    simp only at hw
    have hmonoT : floorNatQ ((s + T - t) * R) ≤ floorNatQ (T * R) := by
      apply floorNatQ_mono
      apply mul_le_mul_of_nonneg_right (by linarith [hts.1]) hRnn
    omega

/-- The floor of zero. -/
theorem floorNatQ_zero : floorNatQ 0 = 0 := by
  simp [floorNatQ]

/-- With a zero refill rate a step never refills. -/
theorem bstep_refill_zero (C : Nat) (b : Bucket) (t : ℚ) :
    bstep C 0 b t =
      (if b.tokens = 0 then (false, b) else (true, ⟨b.tokens - 1, b.last_refill⟩)) := by
  by_cases hb : b.tokens = 0 <;> simp [bstep, floorNatQ_zero, hb]

/-- One step keeps the bucket within capacity, and leaves it empty or
strictly below capacity. -/
theorem bstep_inv (C R : Nat) (b : Bucket) (t : ℚ) (hb : b.tokens ≤ C) :
    ((bstep C R b t).2.tokens = 0 ∨ (bstep C R b t).2.tokens < C)
    ∧ (bstep C R b t).2.tokens ≤ C := by
  rcases bstep_spec C R b t with ⟨hr, hpos, hbs⟩ | ⟨hr, h0, hbs⟩ |
    ⟨hr, hpos, hbs⟩ | ⟨hr, h0, hbs⟩ <;> rw [hbs] <;> dsimp only
  · have hminC : min (b.tokens + floorNatQ (max (t - b.last_refill) 0 * R)) C ≤ C :=
      Nat.min_le_right _ _
    omega
  · omega
  · omega
  · omega

/-- One-step unfolding of `allowRun`. -/
theorem allowRun_cons (C R : Nat) (key : String) (st : RLState) (t : ℚ) (ts : List ℚ) :
    allowRun C R key st (t :: ts) =
      (if (allow C R t key st).1 then 1 else 0) +
        allowRun C R key (allow C R t key st).2 ts := rfl

/-- `allow` is the bucket step on the key's bucket (created at full
capacity when absent), with the table updated at that key. -/
theorem allow_eq_bstep (C R : Nat) (t : ℚ) (key : String) (st : RLState) :
    allow C R t key st =
      ((bstep C R ((lookupA st key).getD ⟨C, t⟩) t).1,
       insertA st key (bstep C R ((lookupA st key).getD ⟨C, t⟩) t).2) := by
  dsimp only [allow, bstep]
  split <;> split <;> rfl

/-- Serving one key through the table is serving its bucket. -/
theorem allowRun_eq_brun (C R : Nat) (key : String) :
    ∀ (ts : List ℚ) (st : RLState) (b : Bucket),
      lookupA st key = some b →
      allowRun C R key st ts = brun C R b ts := by
  intro ts
  induction ts with
  | nil => intro st b _; rfl
  | cons t rest ih =>
    intro st b hb
    rw [allowRun_cons, allow_eq_bstep]
    simp only [hb, Option.getD_some]
    rw [brun_cons, ih _ _ (lookupA_insertA_self st key _)]

/-- Serving a fresh key is serving a bucket created at full capacity at the
first request's time. -/
theorem allowRun_fresh (C R : Nat) (key : String) (st : RLState) (t : ℚ) (ts : List ℚ)
    (hb : lookupA st key = none) :
    allowRun C R key st (t :: ts) = brun C R (⟨C, t⟩ : Bucket) (t :: ts) := by
  rw [allowRun_cons, allow_eq_bstep]
  simp only [hb, Option.getD_none]
  rw [brun_cons, allowRun_eq_brun C R key ts _ _ (lookupA_insertA_self st key _)]

/-! C7. -/

/-- C7: the rate-limit token bucket.  A key's bucket is created at full
capacity on first use — the first request of a fresh key is admitted
whenever the capacity is positive and leaves `C - 1` tokens; each step
keeps a bucket at or below capacity and leaves it empty or strictly below
capacity (the states the window bound assumes are exactly the reachable
ones); the admitted requests for one key over request times lying in any
interval of length `T` number at most `C + ⌊R·T⌋`, from a reachable bucket
state as well as from a fresh key; and with capacity 2 and refill rate 0,
of three requests keyed by `x-client-ip: 10.0.0.1` the first two are
admitted and the third receives the 429 response with the
rate-limit-exceeded JSON body and content-type `application/json`. -/
theorem token_bucket_contract :
    (∀ (C R : Nat) (now : ℚ) (key : String) (st : RLState),
        lookupA st key = none → 0 < C →
        allow C R now key st = (true, insertA st key ⟨C - 1, now⟩))
    ∧ (∀ (C R : Nat) (b : Bucket) (t : ℚ), b.tokens ≤ C →
        ((bstep C R b t).2.tokens = 0 ∨ (bstep C R b t).2.tokens < C)
        ∧ (bstep C R b t).2.tokens ≤ C)
    ∧ (∀ (C R : Nat) (key : String) (st : RLState) (b : Bucket) (ts : List ℚ) (s T : ℚ),
        lookupA st key = some b →
        (b.tokens = 0 ∨ b.tokens < C) →
        List.Chain' (· ≤ ·) (b.last_refill :: ts) →
        (∀ t ∈ ts, s ≤ t ∧ t ≤ s + T) →
        allowRun C R key st ts ≤ C + floorNatQ ((R : ℚ) * T))
    ∧ (∀ (C R : Nat) (key : String) (st : RLState) (ts : List ℚ) (s T : ℚ),
        lookupA st key = none →
        List.Chain' (· ≤ ·) ts →
        (∀ t ∈ ts, s ≤ t ∧ t ≤ s + T) →
        allowRun C R key st ts ≤ C + floorNatQ ((R : ℚ) * T))
    ∧ (∀ (t1 t2 t3 : ℚ) (st : RLState) (req : PyRequest),
        req.header "x-client-ip" = some "10.0.0.1" →
        lookupA st "10.0.0.1" = none →
        rateLimitBefore 2 0 t1 req st = (.Continue, insertA st "10.0.0.1" ⟨1, t1⟩)
        ∧ rateLimitBefore 2 0 t2 req (insertA st "10.0.0.1" ⟨1, t1⟩) =
            (.Continue, insertA (insertA st "10.0.0.1" ⟨1, t1⟩) "10.0.0.1" ⟨0, t1⟩)
        ∧ (rateLimitBefore 2 0 t3 req
              (insertA (insertA st "10.0.0.1" ⟨1, t1⟩) "10.0.0.1" ⟨0, t1⟩)).1 =
            .Respond { status := 429, body := "\x7b\"error\":\"Rate limit exceeded\"\x7d",
                       content_type := "application/json", headers := [] }) := by
  refine ⟨?_, ?_, ?_, ?_, ?_⟩
  · intro C R now key st hb hC
    have hC' : ¬ C = 0 := by omega
    rw [allow_eq_bstep]
    simp only [hb, Option.getD_none]
    have hbs : bstep C R (⟨C, now⟩ : Bucket) now = (true, ⟨C - 1, now⟩) := by
      simp [bstep, floorNatQ_zero, hC']
    rw [hbs]
  · intro C R b t hb
    exact bstep_inv C R b t hb
  · intro C R key st b ts s T hb hinv hchain hwin
    rw [allowRun_eq_brun C R key ts st b hb, mul_comm]
    exact brun_window C R b ts s T hchain hwin hinv
  · intro C R key st ts s T hb hchain hwin
    cases ts with
    | nil => simp [allowRun]
    | cons t rest =>
      rw [allowRun_fresh C R key st t rest hb, mul_comm]
      exact brun_window_fresh C R t rest s T hchain hwin
  · intro t1 t2 t3 st req hhdr hfresh
    have hkey : (req.header "x-client-ip").getD "unknown" = "10.0.0.1" := by
      rw [hhdr]; rfl
    have h1 : allow 2 0 t1 "10.0.0.1" st = (true, insertA st "10.0.0.1" ⟨1, t1⟩) := by
      rw [allow_eq_bstep]
      simp only [hfresh, Option.getD_none]
      rw [bstep_refill_zero]
      simp
    have h2 : allow 2 0 t2 "10.0.0.1" (insertA st "10.0.0.1" ⟨1, t1⟩) =
        (true, insertA (insertA st "10.0.0.1" ⟨1, t1⟩) "10.0.0.1" ⟨0, t1⟩) := by
      rw [allow_eq_bstep]
      simp only [lookupA_insertA_self, Option.getD_some]
      rw [bstep_refill_zero]
      simp
    have h3 : allow 2 0 t3 "10.0.0.1"
        (insertA (insertA st "10.0.0.1" ⟨1, t1⟩) "10.0.0.1" ⟨0, t1⟩) =
        (false, insertA (insertA (insertA st "10.0.0.1" ⟨1, t1⟩) "10.0.0.1" ⟨0, t1⟩)
          "10.0.0.1" ⟨0, t1⟩) := by
      rw [allow_eq_bstep]
      simp only [lookupA_insertA_self, Option.getD_some]
      rw [bstep_refill_zero]
      simp
    refine ⟨?_, ?_, ?_⟩
    · simp [rateLimitBefore, hkey, h1]
    · simp [rateLimitBefore, hkey, h2]
    · simp only [rateLimitBefore, hkey, h3]
      norm_num
      rfl

/-- Witness for C7: a fresh bucket of capacity 2, the step invariant, the
window bound over the interval `[1, 2]` from both bucket states, and the
three-request 429 scenario at concrete times. -/
theorem token_bucket_contract_witness :
    (lookupA ([] : RLState) "k" = none ∧ 0 < 2
      ∧ allow 2 0 0 "k" [] = (true, insertA [] "k" ⟨1, 0⟩))
    ∧ ((⟨1, 0⟩ : Bucket).tokens ≤ 2
      ∧ (((bstep 2 1 ⟨1, 0⟩ 1).2.tokens = 0 ∨ (bstep 2 1 ⟨1, 0⟩ 1).2.tokens < 2)
        ∧ (bstep 2 1 ⟨1, 0⟩ 1).2.tokens ≤ 2))
    ∧ allowRun 2 1 "k" [("k", ⟨1, 0⟩)] [1, 2] ≤ 2 + floorNatQ ((1 : ℚ) * 1)
    ∧ allowRun 2 1 "k" [] [1, 2] ≤ 2 + floorNatQ ((1 : ℚ) * 1)
    ∧ (reqRateFix.header "x-client-ip" = some "10.0.0.1"
      ∧ rateLimitBefore 2 0 0 reqRateFix [] = (.Continue, insertA [] "10.0.0.1" ⟨1, 0⟩)
      ∧ (rateLimitBefore 2 0 2 reqRateFix
            (insertA (insertA [] "10.0.0.1" ⟨1, 0⟩) "10.0.0.1" ⟨0, 0⟩)).1 =
          .Respond { status := 429, body := "\x7b\"error\":\"Rate limit exceeded\"\x7d",
                     content_type := "application/json", headers := [] }) :=
  ⟨⟨rfl, by decide, token_bucket_contract.1 2 0 0 "k" [] rfl (by decide)⟩,
   ⟨by decide, token_bucket_contract.2.1 2 1 ⟨1, 0⟩ 1 (by decide)⟩,
   token_bucket_contract.2.2.1 2 1 "k" [("k", ⟨1, 0⟩)] ⟨1, 0⟩ [1, 2] 1 1 rfl
     (by decide) (by norm_num [List.chain'_cons]) (by norm_num),
   token_bucket_contract.2.2.2.1 2 1 "k" [] [1, 2] 1 1 rfl
     (by norm_num [List.chain'_cons]) (by norm_num),
   ⟨by decide,
    (token_bucket_contract.2.2.2.2 0 1 2 [] reqRateFix (by decide) rfl).1,
    (token_bucket_contract.2.2.2.2 0 1 2 [] reqRateFix (by decide) rfl).2.2⟩⟩

end PyVectora
